import Mathlib

/-!
Verification development for the `prism` polygon-simplification engine
(`prism/segment.py`, `prism/ring.py`, `prism/simplify.py`).

Python floats are modelled as real numbers.  Segment objects are modelled by
an object store `Nat → SegData` (objects persist after being unlinked from the
ring, exactly as Python objects do); the `Ring._segments` list is the `ids`
list; the `heapq`-based priority queue is modelled by the exact CPython
`heapq` algorithms over object identifiers, comparing by current segment
length, as `Segment.__lt__` does.
-/

noncomputable section

namespace Prism

open Classical Real

/-- A 2D coordinate pair. -/
abbrev Point := ℝ × ℝ

/-- Euclidean distance between two points: `np.linalg.norm(a - b)`, also the
length of the two-point `LineString([a, b])`. -/
def ptDist (a b : Point) : ℝ :=
  Real.sqrt ((a.1 - b.1) ^ 2 + (a.2 - b.2) ^ 2)

/-- Two-argument arctangent on the reals, following `math.atan2`/`np.arctan2`
(branch structure: quadrant correction by `±π`, vertical axis gives `±π/2`,
`atan2 0 0 = 0`). -/
def atan2 (y x : ℝ) : ℝ :=
  if 0 < x then Real.arctan (y / x)
  else if x = 0 then (if 0 < y then π / 2 else if y < 0 then -(π / 2) else 0)
  else if 0 ≤ y then Real.arctan (y / x) + π
  else Real.arctan (y / x) - π

/-- A segment object (`Segment` in `prism/segment.py`): a start point, an end
point, and identifiers of the previous and next segment objects. -/
structure SegData where
  sp : Point
  ep : Point
  prv : Nat
  nxt : Nat

/-- `Segment.length`: `np.linalg.norm(np.array(self.sp) - np.array(self.ep))`. -/
def segLen (s : SegData) : ℝ := ptDist s.sp s.ep

/-- `Segment.slope_as_angle`: direction angle of the segment normalised
into `[0, 2π)` by adding `2π` to negative `atan2` results. -/
def slopeAsAngle (s : SegData) : ℝ :=
  let d := atan2 (s.ep.2 - s.sp.2) (s.ep.1 - s.sp.1)
  if d < 0 then 2 * π + d else d

/-- `Segment.angle`: bend angle at vertex `b` between vectors `a - b` and
`c - b`, with the cosine clamped into `[-1, 1]` before `arccos`
(`a = sp`, `b = ep`, `c = next_seg.ep`).  When one of the vectors has length
zero, numpy produces NaN and every comparison against the result is false; in
this real-valued model the division by zero yields `0` and the angle `π / 2`.
None of the theorems below depends on that corner (the runs evaluated
concretely have no zero-length segment at this test, and the invariant
theorems hold on every branch). -/
def bendAngle (a b c : Point) : ℝ :=
  let ba : Point := (a.1 - b.1, a.2 - b.2)
  let bc : Point := (c.1 - b.1, c.2 - b.2)
  let cosv := (ba.1 * bc.1 + ba.2 * bc.2) /
    (Real.sqrt (ba.1 ^ 2 + ba.2 ^ 2) * Real.sqrt (bc.1 ^ 2 + bc.2 ^ 2))
  Real.arccos (max (-1) (min 1 cosv))

/-- `project(px, py, x, y, tan)` from `simplify.py`: the point projected from
`(px, py)` onto the line through `(x, y)` with the given tangent.  The Python
branch for an infinite tangent (`isinf`) is unreachable (`math.tan` never
returns an infinity), so it has no counterpart over ℝ. -/
def project (px py x y tan : ℝ) : Point :=
  if tan = 0 then (px, y)
  else
    let cot := 1 / tan
    ((px + tan * tan * x + tan * (py - y)) / (1 + tan * tan),
     (py + cot * cot * y + cot * (px - x)) / (1 + cot * cot))

/-- `intersection2(seg, x, y, tan)` from `simplify.py`: intersection of the
line supporting the segment `(s1, e1)` with the line through `(x, y)` of the
given tangent; `none` when the determinant is zero. -/
def intersection2 (s1 e1 : Point) (x y tan : ℝ) : Option Point :=
  let s2 : Point := (x, y)
  let e2 : Point := (x + 1, y + tan)
  let a1 := e1.2 - s1.2
  let b1 := s1.1 - e1.1
  let c1 := a1 * s1.1 + b1 * s1.2
  let a2 := e2.2 - s2.2
  let b2 := s2.1 - e2.1
  let c2 := a2 * s2.1 + b2 * s2.2
  let dt := a1 * b2 - a2 * b1
  if dt = 0 then none
  else some ((b2 * c1 - b1 * c2) / dt, (a1 * c2 - a2 * c1) / dt)

/-- `intersection(a, b)` from `simplify.py`: intersection of the two lines
supporting segments `a = (asp, aep)` and `b = (bsp, bep)`; `none` when the
determinant `t` is zero (parallel lines). -/
def intersectionLines (asp aep bsp bep : Point) : Option Point :=
  let t := (asp.1 - aep.1) * (bsp.2 - bep.2) - (asp.2 - aep.2) * (bsp.1 - bep.1)
  let x := (asp.1 * aep.2 - asp.2 * aep.1) * (bsp.1 - bep.1) -
    (asp.1 - aep.1) * (bsp.1 * bep.2 - bsp.2 * bep.1)
  let y := (asp.1 * aep.2 - asp.2 * aep.1) * (bsp.2 - bep.2) -
    (asp.2 - aep.2) * (bsp.1 * bep.2 - bsp.2 * bep.1)
  if t = 0 then none else some (x / t, y / t)

/-- Distance from point `p` to the closed segment `[a, b]`; models the GEOS
computation behind `LineString([a, b]).distance(Point(p))`: the orthogonal
projection parameter is clamped into `[0, 1]`. -/
def distPointSeg (a b p : Point) : ℝ :=
  let d2 := (b.1 - a.1) ^ 2 + (b.2 - a.2) ^ 2
  if d2 = 0 then ptDist p a
  else
    let t := ((p.1 - a.1) * (b.1 - a.1) + (p.2 - a.2) * (b.2 - a.2)) / d2
    let t1 := max 0 (min 1 t)
    ptDist p (a.1 + t1 * (b.1 - a.1), a.2 + t1 * (b.2 - a.2))

/-- Linear interpolation at normalised ratio `r`; models
`LineString([a, b]).interpolate(r, normalized=True)` for `0 ≤ r ≤ 1`, the only
way the engine calls it (the ratio is a quotient of nonnegative lengths by
their sum). -/
def interpolateNorm (a b : Point) (r : ℝ) : Point :=
  (a.1 + r * (b.1 - a.1), a.2 + r * (b.2 - a.2))

/-- The `Ring` object: the object store for every segment ever created, and
the `Ring._segments` list, as the list of identifiers currently in the ring
(in Python list order).  Removed segments stay in the store, as the
corresponding Python objects stay alive while referenced from the queue. -/
structure RingSt where
  store : Nat → SegData
  ids : List Nat

/-- Overwrite the fields of the segment object `i`. -/
def setSeg (r : RingSt) (i : Nat) (f : SegData → SegData) : RingSt :=
  { r with store := Function.update r.store i (f (r.store i)) }

/-- `Ring.merge(seg)`: a no-op when `seg` is not in `self.segments`; otherwise
executes, in order, `seg.prev_seg.next_seg = seg.next_seg`,
`seg.next_seg.prev_seg = seg.prev_seg`, `seg.next_seg.sp = seg.prev_seg.ep`,
`self.segments.remove(seg)`. -/
def Ring.merge (r : RingSt) (i : Nat) : RingSt :=
  if i ∈ r.ids then
    let p := (r.store i).prv
    let n := (r.store i).nxt
    let r1 := setSeg r p (fun s => { s with nxt := n })
    let r2 := setSeg r1 n (fun s => { s with prv := p })
    let r3 := setSeg r2 n (fun s => { s with sp := (r2.store p).ep })
    { r3 with ids := r3.ids.erase i }
  else r

/-- `Ring.update(seg, sp, ep)`: a no-op when `seg` is not in `self.segments`;
otherwise `seg.sp = sp`, `seg.ep = ep`, `seg.prev_seg.ep = seg.sp`,
`seg.next_seg.sp = seg.ep`, in that order, each right-hand side read from the
current state (which matters when the ring has a single segment). -/
def Ring.update (r : RingSt) (i : Nat) (sp ep : Point) : RingSt :=
  if i ∈ r.ids then
    let r1 := setSeg r i (fun s => { s with sp := sp })
    let r2 := setSeg r1 i (fun s => { s with ep := ep })
    let p := (r2.store i).prv
    let r3 := setSeg r2 p (fun s => { s with ep := (r2.store i).sp })
    let n := (r3.store i).nxt
    setSeg r3 n (fun s => { s with sp := (r3.store i).ep })
  else r

/-- `Ring.remove(seg, q)`: a no-op when `seg` is not in `self.segments`;
otherwise relink the neighbours around `seg`, set `seg.prev_seg.ep = q` and
`seg.next_seg.sp = q`, and drop `seg` from the list. -/
def Ring.remove (r : RingSt) (i : Nat) (q : Point) : RingSt :=
  if i ∈ r.ids then
    let p := (r.store i).prv
    let n := (r.store i).nxt
    let r1 := setSeg r p (fun s => { s with nxt := n })
    let r2 := setSeg r1 n (fun s => { s with prv := p })
    let r3 := setSeg r2 p (fun s => { s with ep := q })
    let r4 := setSeg r3 n (fun s => { s with sp := q })
    { r4 with ids := r4.ids.erase i }
  else r

/-- `Ring.coordinates`: the start points of the listed segments, in list
order, followed by the end point of the last one.  On an empty ring Python
raises an `IndexError`; that state is unreachable in the runs below, and the
model returns `[]` there. -/
def Ring.coordinates (r : RingSt) : List Point :=
  match r.ids.getLast? with
  | none => []
  | some lastId => r.ids.map (fun i => (r.store i).sp) ++ [(r.store lastId).ep]

/-- `Ring.__init__(coordinates)`: one segment per consecutive coordinate pair
(`n = len(coordinates) - 1` segments), linked cyclically; the two linking
loops amount to `prev = (i - 1) mod n` and `next = (i + 1) mod n`.  With
fewer than two segments the trailing statements `self._segments[-1].prev_seg
= self._segments[-2]` (and, on an empty list, `self._segments[-1]`) raise an
`IndexError`. -/
def ringInit (coords : List Point) : Except String RingSt :=
  let n := coords.length - 1
  if n < 2 then .error "IndexError: Ring with fewer than 2 segments"
  else .ok
    { store := fun i =>
        if i < n then
          { sp := coords.getD i (0, 0), ep := coords.getD (i + 1) (0, 0),
            prv := (i + n - 1) % n, nxt := (i + 1) % n }
        else { sp := (0, 0), ep := (0, 0), prv := i, nxt := i },
      ids := List.range n }

/-!
## The priority queue

Exact model of the CPython `heapq` functions used by `simplify_ring`
(`heappush`, `heappop`, `heapify`), over a list of object identifiers and a
key giving each identifier's current length (`Segment.__lt__` compares
current lengths).  `queue.remove(seg)` removes the first occurrence, by
object identity (Segment defines no `__eq__`), and is followed by `heapify`.
-/

/-- CPython `heapq._siftdown(heap, startpos, pos)`: move `newitem` up towards
`startpos`, shifting parents down, until a parent no smaller than `newitem`
is met.  (`newitem` is passed explicitly: CPython reads it from `heap[pos]`
before the loop and the slot is treated as a hole.) -/
def siftdownAux (k : Nat → ℝ) (heap : List Nat) (startpos pos newitem : Nat) :
    List Nat :=
  if h : startpos < pos then
    let parentpos := (pos - 1) / 2
    let parent := heap.getD parentpos 0
    if k newitem < k parent then
      siftdownAux k (heap.set pos parent) startpos parentpos newitem
    else heap.set pos newitem
  else heap.set pos newitem
termination_by pos
decreasing_by
  omega

/-- CPython `heapq._siftup(heap, pos)` main loop: move the hole at `pos` down
to a leaf along the smaller child, then place `newitem` and sift it down
towards `startpos`. -/
def siftupAux (k : Nat → ℝ) (heap : List Nat) (pos endpos startpos newitem : Nat) :
    List Nat :=
  let childpos := 2 * pos + 1
  if h : childpos < endpos then
    let rightpos := childpos + 1
    let childsel :=
      if rightpos < endpos ∧ ¬ k (heap.getD childpos 0) < k (heap.getD rightpos 0)
      then rightpos else childpos
    siftupAux k (heap.set pos (heap.getD childsel 0)) childsel endpos startpos newitem
  else siftdownAux k (heap.set pos newitem) startpos pos newitem
termination_by endpos - pos
decreasing_by
  simp only [childsel, childpos] at *
  split <;> omega

/-- CPython `heapq._siftup(heap, pos)`. -/
def siftupFrom (k : Nat → ℝ) (heap : List Nat) (pos : Nat) : List Nat :=
  siftupAux k heap pos heap.length pos (heap.getD pos 0)

/-- CPython `heapq.heappush`: append, then sift the new item down
(towards the root). -/
def heapPush (k : Nat → ℝ) (heap : List Nat) (item : Nat) : List Nat :=
  siftdownAux k (heap ++ [item]) 0 heap.length item

/-- CPython `heapq.heappop`: pop the last element; if the heap is still
nonempty, the root is returned and the last element is sifted up from the
root.  Returns `none` on an empty heap (Python raises `IndexError`; the loop
guard prevents this). -/
def heapPop (k : Nat → ℝ) (heap : List Nat) : Option (Nat × List Nat) :=
  if heap = [] then none
  else
    let lastelt := heap.getLastD 0
    let rest := heap.dropLast
    if rest = [] then some (lastelt, [])
    else some (rest.getD 0 0, siftupFrom k (rest.set 0 lastelt) 0)

/-- CPython `heapq.heapify`: `for i in reversed(range(n // 2)): _siftup(x, i)`. -/
def heapifyList (k : Nat → ℝ) (heap : List Nat) : List Nat :=
  ((List.range (heap.length / 2)).reverse).foldl (fun h i => siftupFrom k h i) heap

/-- `remove_from_queue(seg)` from `simplify_ring`: `queue.remove(seg)`
followed by `heapify(queue)`; a `ValueError` (segment not present) is caught
and nothing happens. -/
def removeFromQueue (k : Nat → ℝ) (q : List Nat) (i : Nat) : List Nat :=
  if i ∈ q then heapifyList k (q.erase i) else q

/-- `enqueue(seg)` from `simplify_ring`: ignored when the segment is already
in the queue, otherwise `heappush`. -/
def enqueue (k : Nat → ℝ) (q : List Nat) (i : Nat) : List Nat :=
  if i ∈ q then q else heapPush k q i

/-!
## The engine state and the five operators
-/

/-- The state of one `simplify_ring` run: the ring and the priority queue. -/
structure EState where
  ring : RingSt
  queue : List Nat

/-- The queue key: the current length of the segment object. -/
def lenKey (r : RingSt) : Nat → ℝ := fun i => segLen (r.store i)

/-- `remove_from_queue` acting on the engine state. -/
def rmQ (st : EState) (i : Nat) : EState :=
  { st with queue := removeFromQueue (lenKey st.ring) st.queue i }

/-- `enqueue` acting on the engine state. -/
def enQ (st : EState) (i : Nat) : EState :=
  { st with queue := enqueue (lenKey st.ring) st.queue i }

/-- `remove_middle_point(seg)`: dequeue `seg.next_seg`, `ring.merge(seg)`,
re-enqueue `seg.next_seg` (re-read after the merge, which leaves `seg`'s own
fields unchanged). -/
def removeMiddlePoint (st : EState) (i : Nat) : EState :=
  let st1 := rmQ st ((st.ring.store i).nxt)
  let st2 : EState := { st1 with ring := Ring.merge st1.ring i }
  enQ st2 ((st2.ring.store i).nxt)

/-- The interpolation ratio of `segment_regression`, line 200:
`seg.prev_seg.length() / (seg.prev_seg.length() + seg.next_seg.length())`.
(When both neighbours have zero length Python produces a NaN here; over ℝ the
division yields `0`.  No theorem below touches that corner.) -/
def regressionFrac (r : RingSt) (i : Nat) : ℝ :=
  segLen (r.store ((r.store i).prv)) /
    (segLen (r.store ((r.store i).prv)) + segLen (r.store ((r.store i).nxt)))

/-- The interpolated point `p` of `segment_regression`, lines 201-202. -/
def regressionP (r : RingSt) (i : Nat) : Point :=
  interpolateNorm (r.store i).sp (r.store i).ep (regressionFrac r i)

/-- The blended angle of `segment_regression`, lines 204-213: the neighbours'
slope angles brought onto one branch, weighted by the ratio, wrapped back
under `2π`. -/
def regressionAngle (r : RingSt) (i : Nat) : ℝ :=
  let a1 := slopeAsAngle (r.store ((r.store i).prv))
  let a2 := slopeAsAngle (r.store ((r.store i).nxt))
  let a12 : ℝ × ℝ :=
    if |a1 - a2| > π then
      (if a1 > a2 then (a1, a2 + 2 * π) else (a1 + 2 * π, a2))
    else (a1, a2)
  let angle0 := a12.1 * regressionFrac r i + a12.2 * (1 - regressionFrac r i)
  if angle0 ≤ 2 * π then angle0 else angle0 - 2 * π

/-- `theta = math.tan(angle)`, line 214. -/
def regressionTheta (r : RingSt) (i : Nat) : ℝ :=
  Real.tan (regressionAngle r i)

/-- The new start point `q1` of `segment_regression`, lines 217-221:
intersection with the segment two hops before, or the projection of
`seg.prev_seg.sp` when that intersection is missing or farther from that
segment than `seg.length()`. -/
def regressionQ1 (r : RingSt) (i : Nat) : Point :=
  let p := regressionP r i
  let theta := regressionTheta r i
  let p_ := (r.store i).prv
  let prev2 := (r.store p_).prv
  match intersection2 (r.store prev2).sp (r.store prev2).ep p.1 p.2 theta with
  | none => project (r.store p_).sp.1 (r.store p_).sp.2 p.1 p.2 theta
  | some q =>
    if distPointSeg (r.store prev2).sp (r.store prev2).ep q > segLen (r.store i)
    then project (r.store p_).sp.1 (r.store p_).sp.2 p.1 p.2 theta
    else q

/-- The new end point `q2` of `segment_regression`, lines 223-227, symmetric
to `regressionQ1` with the segment two hops after and `seg.next_seg.ep`. -/
def regressionQ2 (r : RingSt) (i : Nat) : Point :=
  let p := regressionP r i
  let theta := regressionTheta r i
  let n_ := (r.store i).nxt
  let next2 := (r.store n_).nxt
  match intersection2 (r.store next2).sp (r.store next2).ep p.1 p.2 theta with
  | none => project (r.store n_).ep.1 (r.store n_).ep.2 p.1 p.2 theta
  | some q =>
    if distPointSeg (r.store next2).sp (r.store next2).ep q > segLen (r.store i)
    then project (r.store n_).ep.1 (r.store n_).ep.2 p.1 p.2 theta
    else q

/-- `segment_regression(seg)`, lines 191-237 of `simplify.py`: dequeue both
neighbours, compute the regression line and its two endpoints, update the
segment, re-enqueue neighbours and segment.  When the popped segment is no
longer in the ring, `ring.update` returns `None` and the following
`seg.prev_seg` raises an `AttributeError`; the model returns an error in that
case.  (The dequeues do not modify the ring, so computing the geometry from
`st2.ring` is the same as Python computing it after the two
`remove_from_queue` calls.) -/
def segmentRegression (st : EState) (i : Nat) : Except String EState :=
  let st1 := rmQ st ((st.ring.store i).prv)
  let st2 := rmQ st1 ((st1.ring.store i).nxt)
  let q1 := regressionQ1 st2.ring i
  let q2 := regressionQ2 st2.ring i
  if i ∈ st2.ring.ids then
    let st3 : EState := { st2 with ring := Ring.update st2.ring i q1 q2 }
    let st4 := enQ st3 ((st3.ring.store i).prv)
    let st5 := enQ st4 i
    .ok (enQ st5 ((st5.ring.store i).nxt))
  else .error "AttributeError: regression on a segment absent from the ring"

/-- `conditional_segment_regression(seg)`: under `merge_first`, possibly
remove a middle point directly; otherwise fall through to
`segment_regression`. -/
def condSegRegression (mergeFirst : Bool) (tau : ℝ) (st : EState) (i : Nat) :
    Except String EState :=
  if mergeFirst then
    let r := st.ring
    let p_ := (r.store i).prv
    let n_ := (r.store i).nxt
    if segLen (r.store p_) < tau ∧ segLen (r.store n_) < tau then
      if segLen (r.store p_) < segLen (r.store n_) then
        if ptDist (r.store p_).sp (r.store n_).sp < tau then
          .ok (removeMiddlePoint (rmQ st p_) p_)
        else segmentRegression st i
      else
        if ptDist (r.store p_).ep (r.store n_).ep < tau then
          .ok (removeMiddlePoint st i)
        else segmentRegression st i
    else segmentRegression st i
  else segmentRegression st i

/-- `join_segment(seg, p)`: dequeue the neighbours, `ring.remove(seg, p)`,
re-enqueue the neighbours. -/
def joinSegment (st : EState) (i : Nat) (q : Point) : EState :=
  let st1 := rmQ st ((st.ring.store i).prv)
  let st2 := rmQ st1 ((st1.ring.store i).nxt)
  let st3 : EState := { st2 with ring := Ring.remove st2.ring i q }
  let st4 := enQ st3 ((st3.ring.store i).prv)
  enQ st4 ((st4.ring.store i).nxt)

/-- `translate_segment(seg)`: dequeue the neighbours, then the three
`prev_length` / `next_length` comparison branches, each a sequence of
`ring.update` / `ring.remove` calls whose arguments are read from the state
current at that statement, followed by the branch's enqueues. -/
def translateSegment (st : EState) (i : Nat) : EState :=
  let st1 := rmQ st ((st.ring.store i).prv)
  let st2 := rmQ st1 ((st1.ring.store i).nxt)
  let r := st2.ring
  let pl := segLen (r.store ((r.store i).prv))
  let nl := segLen (r.store ((r.store i).nxt))
  if pl < nl then
    let pseg := r.store ((r.store i).prv)
    let s := r.store i
    let p : Point := (s.ep.1 - (pseg.ep.1 - pseg.sp.1), s.ep.2 - (pseg.ep.2 - pseg.sp.2))
    let r1 := Ring.update r i pseg.sp p
    let n1 := (r1.store i).nxt
    let r2 := Ring.update r1 n1 p ((r1.store n1).ep)
    let p1 := (r2.store i).prv
    let r3 := Ring.remove r2 p1 ((r2.store i).sp)
    let st3 : EState := { st2 with ring := r3 }
    let st4 := enQ st3 i
    enQ st4 ((st4.ring.store i).nxt)
  else if nl < pl then
    let nseg := r.store ((r.store i).nxt)
    let s := r.store i
    let p : Point := (s.sp.1 + (nseg.ep.1 - nseg.sp.1), s.sp.2 + (nseg.ep.2 - nseg.sp.2))
    let p0 := (r.store i).prv
    let r1 := Ring.update r p0 ((r.store p0).sp) p
    let r2 := Ring.update r1 i p ((r1.store ((r1.store i).nxt)).ep)
    let r3 := Ring.remove r2 ((r2.store i).nxt) ((r2.store i).ep)
    let st3 : EState := { st2 with ring := r3 }
    let st4 := enQ st3 i
    enQ st4 ((st4.ring.store i).prv)
  else
    let r1 := Ring.update r i ((r.store ((r.store i).prv)).sp) ((r.store ((r.store i).nxt)).ep)
    let r2 := Ring.remove r1 ((r1.store i).nxt) ((r1.store i).ep)
    let r3 := Ring.remove r2 ((r2.store i).prv) ((r2.store i).sp)
    let st3 : EState := { st2 with ring := r3 }
    enQ st3 i

/-- The prune half of step 2d: collinear-merge the shorter neighbour
(`remove_middle_point(seg.prev_seg)` after dequeuing it when `prev` is
strictly shorter, else `remove_middle_point(seg)`). -/
def pruneStep (st : EState) (i : Nat) : EState :=
  let r := st.ring
  if segLen (r.store ((r.store i).prv)) < segLen (r.store ((r.store i).nxt)) then
    removeMiddlePoint (rmQ st ((r.store i).prv)) ((r.store i).prv)
  else removeMiddlePoint st i

/-- Lines 316-326 of `simplify_ring`: intersection of the lines extending the
neighbours, effective join distance `min(gamma if set else s.length(), tau)`,
join when the intersection exists within that distance of the popped segment,
otherwise prune. -/
def joinOrPrune (tau : ℝ) (gamma : Option ℝ) (st : EState) (i : Nat) : EState :=
  let r := st.ring
  let q := intersectionLines (r.store ((r.store i).prv)).sp (r.store ((r.store i).prv)).ep
    (r.store ((r.store i).nxt)).sp (r.store ((r.store i).nxt)).ep
  let g0 := match gamma with | none => segLen (r.store i) | some g => g
  let g1 := min g0 tau
  match q with
  | some qp =>
    if distPointSeg (r.store i).sp (r.store i).ep qp ≤ g1 then joinSegment st i qp
    else pruneStep st i
  | none => pruneStep st i

/-!
## The main loop, `simplify_ring` and `simplify`
-/

/-- The negation of the `while` condition of `simplify_ring`:
`len(queue) > 0 and len(ring) >= 3`. -/
def loopDone (st : EState) : Bool :=
  st.queue.isEmpty || decide (st.ring.ids.length < 3)

/-- Lines 302-310 of `simplify_ring`: the angular difference of the
neighbours' slope angles, brought onto one branch and folded into `[0, π]`
(`alpha = min(alpha, abs(alpha - pi*2))`). -/
def foldedAlpha (r : RingSt) (i : Nat) : ℝ :=
  let a1 := slopeAsAngle (r.store ((r.store i).prv))
  let a2 := slopeAsAngle (r.store ((r.store i).nxt))
  let a12 : ℝ × ℝ :=
    if |a1 - a2| > π then
      (if a1 > a2 then (a1, a2 + 2 * π) else (a1 + 2 * π, a2))
    else (a1, a2)
  min |a12.1 - a12.2| (|(|a12.1 - a12.2|) - 2 * π|)

/-- The bend angle tested by the collinearity branch: `s.angle()` with
`a = sp`, `b = ep`, `c = next_seg.ep`. -/
def popAngle (r : RingSt) (i : Nat) : ℝ :=
  bendAngle (r.store i).sp (r.store i).ep (r.store ((r.store i).nxt)).ep

/-- One iteration of the main loop of `simplify_ring` (lines 292-328):
pop the shortest segment, then dispatch on the collinearity test, the length
test and the folded angular difference `alpha` of the neighbours' slopes. -/
def loopStep (tau epsilon delta : ℝ) (gamma : Option ℝ) (mergeFirst : Bool)
    (st : EState) : Except String EState :=
  match heapPop (lenKey st.ring) st.queue with
  | none => .ok st
  | some (s, q1) =>
    let st1 : EState := { st with queue := q1 }
    if π - delta < popAngle st1.ring s ∧ popAngle st1.ring s < π + delta then
      .ok (removeMiddlePoint st1 s)
    else if segLen (st1.ring.store s) ≤ tau then
      if 0 ≤ foldedAlpha st1.ring s ∧ foldedAlpha st1.ring s ≤ epsilon then
        condSegRegression mergeFirst tau st1 s
      else if π - foldedAlpha st1.ring s ≤ epsilon then .ok (translateSegment st1 s)
      else .ok (joinOrPrune tau gamma st1 s)
    else .ok st1

/-- The main loop, fuelled: `.error "fuel exhausted"` exactly when the
Python loop performs more than `fuel` iterations. -/
def runLoop (tau epsilon delta : ℝ) (gamma : Option ℝ) (mergeFirst : Bool) :
    Nat → EState → Except String EState
  | 0, st => if loopDone st then .ok st else .error "fuel exhausted"
  | fuel + 1, st =>
    if loopDone st then .ok st
    else (loopStep tau epsilon delta gamma mergeFirst st).bind
      (runLoop tau epsilon delta gamma mergeFirst fuel)

/-- `for line_segment in ring: enqueue(line_segment)` — the initial queue. -/
def initQueue (r : RingSt) : List Nat :=
  r.ids.foldl (fun q i => enqueue (lenKey r) q i) []

/-- The engine state right after initialisation. -/
def initState (r : RingSt) : EState :=
  { ring := r, queue := initQueue r }

/-- The shapely `LinearRing(coordinates)` constructor: fewer than 3
coordinate tuples raise a `ValueError`; a sequence whose first and last
points differ is closed implicitly by appending the first point; GEOS then
rejects a closed sequence of fewer than 4 points
(`Invalid number of points in LinearRing found 3 - must be 0 or >= 4`).
On success the ring holds the closed sequence. -/
def linearRing (cs : List Point) : Except String (List Point) :=
  if cs.length < 3 then
    .error "ValueError: A LinearRing must have at least 3 coordinate tuples"
  else
    let cs2 := if cs.getD 0 (0, 0) = cs.getD (cs.length - 1) (0, 0) then cs
      else cs ++ [cs.getD 0 (0, 0)]
    if cs2.length < 4 then
      .error "IllegalArgumentException: Invalid number of points in LinearRing found 3 - must be 0 or >= 4"
    else .ok cs2

/-- `simplify_ring(linear_ring, tau, epsilon, delta, gamma, merge_first)`:
deep-copy the coordinates (pure values here), build the ring, enqueue every
segment, run the loop, then reject (`None`) when the final ring has fewer
than 3 coordinates, else hand the coordinate sequence to the `LinearRing`
constructor and return the resulting ring.  `fuel` bounds the number of loop
iterations; `.error "fuel exhausted"` means the Python loop runs longer than
`fuel`. -/
def simplifyRing (fuel : Nat) (coords : List Point) (tau epsilon delta : ℝ)
    (gamma : Option ℝ) (mergeFirst : Bool) : Except String (Option (List Point)) := do
  let r ← ringInit coords
  let stF ← runLoop tau epsilon delta gamma mergeFirst fuel (initState r)
  if (Ring.coordinates stF.ring).length < 3 then pure none
  else do
    let lr ← linearRing (Ring.coordinates stF.ring)
    pure (some lr)

/-- A polygon input: exterior ring plus interior rings (each a closed
coordinate sequence). -/
structure PolyIn where
  exterior : List Point
  interiors : List (List Point)

/-- What `simplify` assembles and passes to the `Polygon` constructor: the
simplified exterior and the *raw* per-hole results, `none` entries included
(the code appends each `simplify_ring` result to `interiors` unfiltered). -/
structure PolyOut where
  exterior : List Point
  interiors : List (Option (List Point))

/-- `simplify(polygon, ...)`: simplify the exterior, then every interior
ring, return `None` when the exterior was rejected, else hand the exterior
and the raw per-hole results (`None` entries included) to the `Polygon`
constructor; shapely's hole processing calls `len` on each hole, so a `None`
entry raises a `TypeError`. -/
def simplify (fuel : Nat) (poly : PolyIn) (tau epsilon delta : ℝ)
    (gamma : Option ℝ) (mergeFirst : Bool) : Except String (Option PolyOut) := do
  let ext ← simplifyRing fuel poly.exterior tau epsilon delta gamma mergeFirst
  let ints ← poly.interiors.mapM
    (fun c => simplifyRing fuel c tau epsilon delta gamma mergeFirst)
  match ext with
  | none => pure none
  | some e =>
    if none ∈ ints then
      .error "TypeError: object of type 'NoneType' has no len()"
    else pure (some { exterior := e, interiors := ints })

/-- Iterated `next_seg` pointer chasing: the trace of the claimed single
cycle. -/
def nxtIter (st : Nat → SegData) (i : Nat) : Nat → Nat
  | 0 => i
  | k + 1 => (st (nxtIter st i k)).nxt

/-!
## Small-size evaluation lemmas for the heap operations

One unfold lemma per branch of the CPython `heapq` routines, then closed
forms for pushes, pops and heapifies of the list sizes arising in the
concrete runs below.
-/

lemma siftdown_lt (k : Nat → ℝ) (heap : List Nat) (startpos pos newitem : Nat)
    (h : startpos < pos) (hlt : k newitem < k (heap.getD ((pos - 1) / 2) 0)) :
    siftdownAux k heap startpos pos newitem =
      siftdownAux k (heap.set pos (heap.getD ((pos - 1) / 2) 0)) startpos
        ((pos - 1) / 2) newitem := by
  rw [siftdownAux]
  simp only [dif_pos h, if_pos hlt]

lemma siftdown_ge (k : Nat → ℝ) (heap : List Nat) (startpos pos newitem : Nat)
    (h : startpos < pos) (hge : ¬ k newitem < k (heap.getD ((pos - 1) / 2) 0)) :
    siftdownAux k heap startpos pos newitem = heap.set pos newitem := by
  rw [siftdownAux]
  simp only [dif_pos h, if_neg hge]

lemma siftdown_stop (k : Nat → ℝ) (heap : List Nat) (startpos pos newitem : Nat)
    (h : ¬ startpos < pos) :
    siftdownAux k heap startpos pos newitem = heap.set pos newitem := by
  rw [siftdownAux, dif_neg h]

lemma siftup_right (k : Nat → ℝ) (heap : List Nat) (pos endpos startpos newitem : Nat)
    (h : 2 * pos + 1 < endpos)
    (hsel : 2 * pos + 2 < endpos ∧
      ¬ k (heap.getD (2 * pos + 1) 0) < k (heap.getD (2 * pos + 2) 0)) :
    siftupAux k heap pos endpos startpos newitem =
      siftupAux k (heap.set pos (heap.getD (2 * pos + 2) 0)) (2 * pos + 2)
        endpos startpos newitem := by
  rw [siftupAux]
  simp only [dif_pos h, if_pos hsel]

lemma siftup_left (k : Nat → ℝ) (heap : List Nat) (pos endpos startpos newitem : Nat)
    (h : 2 * pos + 1 < endpos)
    (hsel : ¬ (2 * pos + 2 < endpos ∧
      ¬ k (heap.getD (2 * pos + 1) 0) < k (heap.getD (2 * pos + 2) 0))) :
    siftupAux k heap pos endpos startpos newitem =
      siftupAux k (heap.set pos (heap.getD (2 * pos + 1) 0)) (2 * pos + 1)
        endpos startpos newitem := by
  rw [siftupAux]
  simp only [dif_pos h, if_neg hsel]

lemma siftup_stop (k : Nat → ℝ) (heap : List Nat) (pos endpos startpos newitem : Nat)
    (h : ¬ 2 * pos + 1 < endpos) :
    siftupAux k heap pos endpos startpos newitem =
      siftdownAux k (heap.set pos newitem) startpos pos newitem := by
  rw [siftupAux]
  simp only [dif_neg h]

lemma heapPush_nil (k : Nat → ℝ) (x : Nat) : heapPush k [] x = [x] := by
  rw [heapPush, List.nil_append, siftdown_stop _ _ _ _ _ (by norm_num)]
  rfl

lemma heapPush_one (k : Nat → ℝ) (a x : Nat) :
    heapPush k [a] x = if k x < k a then [x, a] else [a, x] := by
  by_cases h1 : k x < k a
  · rw [if_pos h1, heapPush, show [a] ++ [x] = [a, x] from rfl,
      show List.length [a] = 1 from rfl,
      siftdown_lt _ _ _ _ _ (by norm_num)
        (by rw [show List.getD [a, x] ((1 - 1) / 2) 0 = a from rfl]; exact h1),
      siftdown_stop _ _ _ _ _ (by norm_num)]
    rfl
  · rw [if_neg h1, heapPush, show [a] ++ [x] = [a, x] from rfl,
      show List.length [a] = 1 from rfl,
      siftdown_ge _ _ _ _ _ (by norm_num)
        (by rw [show List.getD [a, x] ((1 - 1) / 2) 0 = a from rfl]; exact h1)]
    rfl

lemma heapPush_two (k : Nat → ℝ) (a b x : Nat) :
    heapPush k [a, b] x = if k x < k a then [x, b, a] else [a, b, x] := by
  by_cases h1 : k x < k a
  · rw [if_pos h1, heapPush, show [a, b] ++ [x] = [a, b, x] from rfl,
      show List.length [a, b] = 2 from rfl,
      siftdown_lt _ _ _ _ _ (by norm_num)
        (by rw [show List.getD [a, b, x] ((2 - 1) / 2) 0 = a from rfl]; exact h1),
      siftdown_stop _ _ _ _ _ (by norm_num)]
    rfl
  · rw [if_neg h1, heapPush, show [a, b] ++ [x] = [a, b, x] from rfl,
      show List.length [a, b] = 2 from rfl,
      siftdown_ge _ _ _ _ _ (by norm_num)
        (by rw [show List.getD [a, b, x] ((2 - 1) / 2) 0 = a from rfl]; exact h1)]
    rfl

lemma heapPush_three (k : Nat → ℝ) (a b c x : Nat) :
    heapPush k [a, b, c] x =
      if k x < k b then (if k x < k a then [x, a, c, b] else [a, x, c, b])
      else [a, b, c, x] := by
  by_cases h1 : k x < k b
  · rw [if_pos h1]
    by_cases h2 : k x < k a
    · rw [if_pos h2, heapPush, show [a, b, c] ++ [x] = [a, b, c, x] from rfl,
        show List.length [a, b, c] = 3 from rfl,
        siftdown_lt _ _ _ _ _ (by norm_num)
          (by rw [show List.getD [a, b, c, x] ((3 - 1) / 2) 0 = b from rfl]; exact h1),
        siftdown_lt _ _ _ _ _ (by norm_num)
          (by exact h2),
        siftdown_stop _ _ _ _ _ (by norm_num)]
      rfl
    · rw [if_neg h2, heapPush, show [a, b, c] ++ [x] = [a, b, c, x] from rfl,
        show List.length [a, b, c] = 3 from rfl,
        siftdown_lt _ _ _ _ _ (by norm_num)
          (by rw [show List.getD [a, b, c, x] ((3 - 1) / 2) 0 = b from rfl]; exact h1),
        siftdown_ge _ _ _ _ _ (by norm_num)
          (by exact h2)]
      rfl
  · rw [if_neg h1, heapPush, show [a, b, c] ++ [x] = [a, b, c, x] from rfl,
      show List.length [a, b, c] = 3 from rfl,
      siftdown_ge _ _ _ _ _ (by norm_num)
        (by rw [show List.getD [a, b, c, x] ((3 - 1) / 2) 0 = b from rfl]; exact h1)]
    rfl

lemma heapPop_one (k : Nat → ℝ) (a : Nat) : heapPop k [a] = some (a, []) := by
  rw [heapPop, if_neg (by simp : ¬ ([a] : List Nat) = [])]
  norm_num

lemma heapPop_two (k : Nat → ℝ) (a b : Nat) : heapPop k [a, b] = some (a, [b]) := by
  rw [heapPop, if_neg (by simp : ¬ ([a, b] : List Nat) = [])]
  show some (a, siftupFrom k ([a].set 0 b) 0) = _
  rw [show ([a].set 0 b) = [b] from rfl, siftupFrom,
    show List.length [b] = 1 from rfl,
    siftup_stop _ _ _ _ _ _ (by norm_num),
    siftdown_stop _ _ _ _ _ (by norm_num)]
  rfl

lemma heapPop_three (k : Nat → ℝ) (a b c : Nat) :
    heapPop k [a, b, c] = some (a, if k c < k b then [c, b] else [b, c]) := by
  rw [heapPop, if_neg (by simp : ¬ ([a, b, c] : List Nat) = [])]
  show some (a, siftupFrom k ([a, b].set 0 c) 0) = _
  rw [show ([a, b].set 0 c) = [c, b] from rfl, siftupFrom,
    show List.length [c, b] = 2 from rfl,
    show List.getD [c, b] 0 0 = c from rfl,
    siftup_left _ _ _ _ _ _ (by norm_num) (by norm_num),
    show ([c, b].set 0 ([c, b].getD (2 * 0 + 1) 0)) = [b, b] from rfl,
    siftup_stop _ _ _ _ _ _ (by norm_num),
    show ([b, b].set (2 * 0 + 1) c) = [b, c] from rfl]
  by_cases h1 : k c < k b
  · rw [if_pos h1,
      siftdown_lt _ _ _ _ _ (by norm_num)
        (by rw [show List.getD [b, c] ((2 * 0 + 1 - 1) / 2) 0 = b from rfl]; exact h1),
      siftdown_stop _ _ _ _ _ (by norm_num)]
    rfl
  · rw [if_neg h1,
      siftdown_ge _ _ _ _ _ (by norm_num)
        (by rw [show List.getD [b, c] ((2 * 0 + 1 - 1) / 2) 0 = b from rfl]; exact h1)]
    rfl

lemma heapPop_four (k : Nat → ℝ) (a b c d : Nat) :
    heapPop k [a, b, c, d] = some (a,
      if k b < k c then (if k d < k b then [d, b, c] else [b, d, c])
      else (if k d < k c then [d, b, c] else [c, b, d])) := by
  rw [heapPop, if_neg (by simp : ¬ ([a, b, c, d] : List Nat) = [])]
  show some (a, siftupFrom k ([a, b, c].set 0 d) 0) = _
  rw [show ([a, b, c].set 0 d) = [d, b, c] from rfl, siftupFrom,
    show List.length [d, b, c] = 3 from rfl,
    show List.getD [d, b, c] 0 0 = d from rfl]
  by_cases hbc : k b < k c
  · rw [if_pos hbc,
      siftup_left _ _ _ _ _ _ (by norm_num)
        (by
          rw [show List.getD [d, b, c] (2 * 0 + 1) 0 = b from rfl,
            show List.getD [d, b, c] (2 * 0 + 2) 0 = c from rfl]
          exact fun hh => hh.2 hbc),
      show ([d, b, c].set 0 ([d, b, c].getD (2 * 0 + 1) 0)) = [b, b, c] from rfl,
      siftup_stop _ _ _ _ _ _ (by norm_num),
      show ([b, b, c].set (2 * 0 + 1) d) = [b, d, c] from rfl]
    by_cases h1 : k d < k b
    · rw [if_pos h1,
        siftdown_lt _ _ _ _ _ (by norm_num)
          (by rw [show List.getD [b, d, c] ((2 * 0 + 1 - 1) / 2) 0 = b from rfl]; exact h1),
        siftdown_stop _ _ _ _ _ (by norm_num)]
      rfl
    · rw [if_neg h1,
        siftdown_ge _ _ _ _ _ (by norm_num)
          (by rw [show List.getD [b, d, c] ((2 * 0 + 1 - 1) / 2) 0 = b from rfl]; exact h1)]
      rfl
  · rw [if_neg hbc,
      siftup_right _ _ _ _ _ _ (by norm_num)
        (by
          rw [show List.getD [d, b, c] (2 * 0 + 1) 0 = b from rfl,
            show List.getD [d, b, c] (2 * 0 + 2) 0 = c from rfl]
          exact ⟨by norm_num, hbc⟩),
      show ([d, b, c].set 0 ([d, b, c].getD (2 * 0 + 2) 0)) = [c, b, c] from rfl,
      siftup_stop _ _ _ _ _ _ (by norm_num),
      show ([c, b, c].set (2 * 0 + 2) d) = [c, b, d] from rfl]
    by_cases h1 : k d < k c
    · rw [if_pos h1,
        siftdown_lt _ _ _ _ _ (by norm_num)
          (by rw [show List.getD [c, b, d] ((2 * 0 + 2 - 1) / 2) 0 = c from rfl]; exact h1),
        siftdown_stop _ _ _ _ _ (by norm_num)]
      rfl
    · rw [if_neg h1,
        siftdown_ge _ _ _ _ _ (by norm_num)
          (by rw [show List.getD [c, b, d] ((2 * 0 + 2 - 1) / 2) 0 = c from rfl]; exact h1)]
      rfl

lemma heapify_nil (k : Nat → ℝ) : heapifyList k [] = [] := by
  rw [heapifyList, show (List.length ([] : List Nat)) / 2 = 0 by norm_num,
    List.range_zero, List.reverse_nil, List.foldl_nil]

lemma heapify_one (k : Nat → ℝ) (a : Nat) : heapifyList k [a] = [a] := by
  rw [heapifyList, show (List.length [a]) / 2 = 0 by norm_num,
    List.range_zero, List.reverse_nil, List.foldl_nil]

lemma heapify_two (k : Nat → ℝ) (a b : Nat) :
    heapifyList k [a, b] = if k a < k b then [a, b] else [b, a] := by
  rw [heapifyList, show (List.length [a, b]) / 2 = 1 by norm_num,
    show List.range 1 = [0] by simp [List.range_succ],
    List.reverse_singleton, List.foldl_cons, List.foldl_nil, siftupFrom,
    show List.length [a, b] = 2 from rfl,
    show List.getD [a, b] 0 0 = a from rfl,
    siftup_left _ _ _ _ _ _ (by norm_num) (by norm_num),
    show ([a, b].set 0 ([a, b].getD (2 * 0 + 1) 0)) = [b, b] from rfl,
    siftup_stop _ _ _ _ _ _ (by norm_num),
    show ([b, b].set (2 * 0 + 1) a) = [b, a] from rfl]
  by_cases h1 : k a < k b
  · rw [if_pos h1,
      siftdown_lt _ _ _ _ _ (by norm_num)
        (by rw [show List.getD [b, a] ((2 * 0 + 1 - 1) / 2) 0 = b from rfl]; exact h1),
      siftdown_stop _ _ _ _ _ (by norm_num)]
    rfl
  · rw [if_neg h1,
      siftdown_ge _ _ _ _ _ (by norm_num)
        (by rw [show List.getD [b, a] ((2 * 0 + 1 - 1) / 2) 0 = b from rfl]; exact h1)]
    rfl

lemma heapify_three (k : Nat → ℝ) (a b c : Nat) :
    heapifyList k [a, b, c] =
      if k b < k c then (if k a < k b then [a, b, c] else [b, a, c])
      else (if k a < k c then [a, b, c] else [c, b, a]) := by
  rw [heapifyList, show (List.length [a, b, c]) / 2 = 1 by norm_num,
    show List.range 1 = [0] by simp [List.range_succ],
    List.reverse_singleton, List.foldl_cons, List.foldl_nil, siftupFrom,
    show List.length [a, b, c] = 3 from rfl,
    show List.getD [a, b, c] 0 0 = a from rfl]
  by_cases hbc : k b < k c
  · rw [if_pos hbc,
      siftup_left _ _ _ _ _ _ (by norm_num)
        (by
          rw [show List.getD [a, b, c] (2 * 0 + 1) 0 = b from rfl,
            show List.getD [a, b, c] (2 * 0 + 2) 0 = c from rfl]
          exact fun hh => hh.2 hbc),
      show ([a, b, c].set 0 ([a, b, c].getD (2 * 0 + 1) 0)) = [b, b, c] from rfl,
      siftup_stop _ _ _ _ _ _ (by norm_num),
      show ([b, b, c].set (2 * 0 + 1) a) = [b, a, c] from rfl]
    by_cases h1 : k a < k b
    · rw [if_pos h1,
        siftdown_lt _ _ _ _ _ (by norm_num)
          (by rw [show List.getD [b, a, c] ((2 * 0 + 1 - 1) / 2) 0 = b from rfl]; exact h1),
        siftdown_stop _ _ _ _ _ (by norm_num)]
      rfl
    · rw [if_neg h1,
        siftdown_ge _ _ _ _ _ (by norm_num)
          (by rw [show List.getD [b, a, c] ((2 * 0 + 1 - 1) / 2) 0 = b from rfl]; exact h1)]
      rfl
  · rw [if_neg hbc,
      siftup_right _ _ _ _ _ _ (by norm_num)
        (by
          rw [show List.getD [a, b, c] (2 * 0 + 1) 0 = b from rfl,
            show List.getD [a, b, c] (2 * 0 + 2) 0 = c from rfl]
          exact ⟨by norm_num, hbc⟩),
      show ([a, b, c].set 0 ([a, b, c].getD (2 * 0 + 2) 0)) = [c, b, c] from rfl,
      siftup_stop _ _ _ _ _ _ (by norm_num),
      show ([c, b, c].set (2 * 0 + 2) a) = [c, b, a] from rfl]
    by_cases h1 : k a < k c
    · rw [if_pos h1,
        siftdown_lt _ _ _ _ _ (by norm_num)
          (by rw [show List.getD [c, b, a] ((2 * 0 + 2 - 1) / 2) 0 = c from rfl]; exact h1),
        siftdown_stop _ _ _ _ _ (by norm_num)]
      rfl
    · rw [if_neg h1,
        siftdown_ge _ _ _ _ _ (by norm_num)
          (by rw [show List.getD [c, b, a] ((2 * 0 + 2 - 1) / 2) 0 = c from rfl]; exact h1)]
      rfl

/-!
## A concrete run: the 1×10 rectangle

Input ring `(0,0), (1,0), (1,10), (0,10), (0,0)` with parameters
`tau = 2`, `epsilon = π`, `delta = 0`, `gamma = None`, `merge_first = False`
(all valid: `tau > 0`, `epsilon, delta ∈ [0, π]`).  Every iteration pops one
of the two short horizontal segments and dispatches to segment-regression,
which recomputes exactly the segment's current endpoints: the ring never
changes, the queue returns to its initial arrangement every two iterations,
and the loop never terminates.
-/

/-- The rectangle's input coordinates (closed: first point repeated). -/
def rectCoords : List Point := [(0, 0), (1, 0), (1, 10), (0, 10), (0, 0)]

/-- The four segment objects created by `Ring.__init__` on `rectCoords`. -/
def rectStore : Nat → SegData := fun i =>
  if i = 0 then { sp := (0, 0), ep := (1, 0), prv := 3, nxt := 1 }
  else if i = 1 then { sp := (1, 0), ep := (1, 10), prv := 0, nxt := 2 }
  else if i = 2 then { sp := (1, 10), ep := (0, 10), prv := 1, nxt := 3 }
  else if i = 3 then { sp := (0, 10), ep := (0, 0), prv := 2, nxt := 0 }
  else { sp := (0, 0), ep := (0, 0), prv := i, nxt := i }

/-- The rectangle ring. -/
def rectRing : RingSt := { store := rectStore, ids := [0, 1, 2, 3] }

lemma rectKey0 : lenKey rectRing 0 = 1 := by
  simp [lenKey, rectRing, rectStore, segLen, ptDist]

lemma rectKey1 : lenKey rectRing 1 = 10 := by
  simp [lenKey, rectRing, rectStore, segLen, ptDist]

lemma rectKey2 : lenKey rectRing 2 = 1 := by
  simp [lenKey, rectRing, rectStore, segLen, ptDist]

lemma rectKey3 : lenKey rectRing 3 = 10 := by
  simp [lenKey, rectRing, rectStore, segLen, ptDist]

/-- `Ring.__init__` on the rectangle produces `rectRing`. -/
lemma ringInit_rect : ringInit rectCoords = .ok rectRing := by
  rw [ringInit]
  rw [show rectCoords.length - 1 = 4 by rw [rectCoords]; rfl]
  rw [if_neg (by norm_num)]
  refine congrArg Except.ok ?_
  refine congrArg₂ RingSt.mk ?_ rfl
  funext i
  rcases i with _ | _ | _ | _ | j
  · norm_num [rectCoords, rectStore]
  · norm_num [rectCoords, rectStore]
  · norm_num [rectCoords, rectStore]
  · norm_num [rectCoords, rectStore]
  · have h4 : ¬ (j + 4 < 4) := by omega
    rw [if_neg h4, rectStore]
    norm_num
    split_ifs with hc1 hc2
    · exact absurd hc1 (by omega)
    · exact absurd hc2 (by omega)
    · rfl

/-- The initial queue on the rectangle is `[0, 1, 2, 3]`. -/
lemma initQueue_rect : initQueue rectRing = [0, 1, 2, 3] := by
  rw [initQueue, show rectRing.ids = [0, 1, 2, 3] from rfl]
  rw [List.foldl_cons, List.foldl_cons, List.foldl_cons, List.foldl_cons, List.foldl_nil]
  rw [show enqueue (lenKey rectRing) [] 0 = heapPush (lenKey rectRing) [] 0 from
    if_neg (by simp), heapPush_nil]
  rw [show enqueue (lenKey rectRing) [0] 1 = heapPush (lenKey rectRing) [0] 1 from
    if_neg (by simp), heapPush_one,
    if_neg (by rw [rectKey0, rectKey1]; norm_num)]
  rw [show enqueue (lenKey rectRing) [0, 1] 2 = heapPush (lenKey rectRing) [0, 1] 2 from
    if_neg (by simp), heapPush_two,
    if_neg (by rw [rectKey0, rectKey2]; norm_num)]
  rw [show enqueue (lenKey rectRing) [0, 1, 2] 3 = heapPush (lenKey rectRing) [0, 1, 2] 3 from
    if_neg (by simp), heapPush_three,
    if_neg (by rw [rectKey1, rectKey3]; norm_num)]

lemma rectStore0 : rectStore 0 = { sp := (0, 0), ep := (1, 0), prv := 3, nxt := 1 } := rfl

lemma rectStore1 : rectStore 1 = { sp := (1, 0), ep := (1, 10), prv := 0, nxt := 2 } := rfl

lemma rectStore2 : rectStore 2 = { sp := (1, 10), ep := (0, 10), prv := 1, nxt := 3 } := rfl

lemma rectStore3 : rectStore 3 = { sp := (0, 10), ep := (0, 0), prv := 2, nxt := 0 } := rfl

lemma rectLen0 : segLen (rectStore 0) = 1 := by simp [rectStore, segLen, ptDist]

lemma rectLen1 : segLen (rectStore 1) = 10 := by simp [rectStore, segLen, ptDist]

lemma rectLen2 : segLen (rectStore 2) = 1 := by simp [rectStore, segLen, ptDist]

lemma rectLen3 : segLen (rectStore 3) = 10 := by simp [rectStore, segLen, ptDist]

/-- Slope angle of the downward vertical segment 3: `atan2(-10, 0) = -π/2`,
shifted into `[0, 2π)` as `3π/2`. -/
lemma rectSlope3 : slopeAsAngle (rectStore 3) = 3 * π / 2 := by
  rw [slopeAsAngle, rectStore3]
  norm_num [atan2]
  rw [if_pos Real.pi_pos]
  ring

/-- Slope angle of the upward vertical segment 1: `atan2(10, 0) = π/2`. -/
lemma rectSlope1 : slopeAsAngle (rectStore 1) = π / 2 := by
  rw [slopeAsAngle, rectStore1]
  norm_num [atan2]
  intro h
  exact absurd h (by positivity : (0:ℝ) < π / 2).not_lt

lemma rectRingStore : rectRing.store = rectStore := rfl

lemma sqrtHundred : Real.sqrt 100 = 10 := by
  rw [show (100 : ℝ) = 10 ^ 2 by norm_num, Real.sqrt_sq (by norm_num : (0 : ℝ) ≤ 10)]

lemma rectFrac0 : regressionFrac rectRing 0 = 1 / 2 := by
  rw [regressionFrac]
  norm_num [rectRing, rectStore, segLen, ptDist, sqrtHundred]

lemma rectFrac2 : regressionFrac rectRing 2 = 1 / 2 := by
  rw [regressionFrac]
  norm_num [rectRing, rectStore, segLen, ptDist, sqrtHundred]

lemma rectP0 : regressionP rectRing 0 = (1 / 2, 0) := by
  simp only [regressionP, rectRingStore, rectStore0, rectFrac0, interpolateNorm]
  norm_num

lemma rectP2 : regressionP rectRing 2 = (1 / 2, 10) := by
  simp only [regressionP, rectRingStore, rectStore2, rectFrac2, interpolateNorm]
  norm_num

lemma rectAngle0 : regressionAngle rectRing 0 = π := by
  simp only [regressionAngle, rectRingStore, rectStore0, rectFrac0]
  rw [rectSlope3, rectSlope1]
  rw [show |3 * π / 2 - π / 2| = π by
    rw [show 3 * π / 2 - π / 2 = π by ring]; exact abs_of_pos Real.pi_pos]
  rw [if_neg (lt_irrefl π)]
  rw [show (3 * π / 2, π / 2).1 * (1 / 2) + (3 * π / 2, π / 2).2 * (1 - 1 / 2) = π by
    norm_num; ring]
  rw [if_pos (by linarith [Real.pi_pos] : π ≤ 2 * π)]

lemma rectAngle2 : regressionAngle rectRing 2 = π := by
  simp only [regressionAngle, rectRingStore, rectStore2, rectFrac2]
  rw [rectSlope1, rectSlope3]
  rw [show |π / 2 - 3 * π / 2| = π by
    rw [show π / 2 - 3 * π / 2 = -π by ring, abs_neg]; exact abs_of_pos Real.pi_pos]
  rw [if_neg (lt_irrefl π)]
  rw [show (π / 2, 3 * π / 2).1 * (1 / 2) + (π / 2, 3 * π / 2).2 * (1 - 1 / 2) = π by
    norm_num; ring]
  rw [if_pos (by linarith [Real.pi_pos] : π ≤ 2 * π)]

lemma rectTheta0 : regressionTheta rectRing 0 = 0 := by
  rw [regressionTheta, rectAngle0, Real.tan_pi]

lemma rectTheta2 : regressionTheta rectRing 2 = 0 := by
  rw [regressionTheta, rectAngle2, Real.tan_pi]

lemma rectQ1_0 : regressionQ1 rectRing 0 = (0, 0) := by
  simp only [regressionQ1, rectRingStore, rectStore0, rectStore3, rectStore2,
    rectP0, rectTheta0]
  norm_num [intersection2, project]

lemma rectQ2_0 : regressionQ2 rectRing 0 = (1, 0) := by
  simp only [regressionQ2, rectRingStore, rectStore0, rectStore1, rectStore2,
    rectP0, rectTheta0]
  norm_num [intersection2, project]

lemma rectQ1_2 : regressionQ1 rectRing 2 = (1, 10) := by
  simp only [regressionQ1, rectRingStore, rectStore2, rectStore1, rectStore0,
    rectP2, rectTheta2]
  norm_num [intersection2, project]

lemma rectQ2_2 : regressionQ2 rectRing 2 = (0, 10) := by
  simp only [regressionQ2, rectRingStore, rectStore2, rectStore3, rectStore0,
    rectP2, rectTheta2]
  norm_num [intersection2, project]

lemma rectRingIds : rectRing.ids = [0, 1, 2, 3] := rfl

lemma rectPrv0 : (rectRing.store 0).prv = 3 := rfl

lemma rectNxt0 : (rectRing.store 0).nxt = 1 := rfl

lemma rectPrv2 : (rectRing.store 2).prv = 1 := rfl

lemma rectNxt2 : (rectRing.store 2).nxt = 3 := rfl

lemma rectRmQa : rmQ ⟨rectRing, [2, 1, 3]⟩ 3 = ⟨rectRing, [2, 1]⟩ := by
  show EState.mk rectRing (removeFromQueue (lenKey rectRing) [2, 1, 3] 3) = _
  rw [removeFromQueue, if_pos (by simp), show [2, 1, 3].erase 3 = [2, 1] from rfl,
    heapify_two, if_pos (by rw [rectKey2, rectKey1]; norm_num)]

lemma rectRmQb : rmQ ⟨rectRing, [2, 1]⟩ 1 = ⟨rectRing, [2]⟩ := by
  show EState.mk rectRing (removeFromQueue (lenKey rectRing) [2, 1] 1) = _
  rw [removeFromQueue, if_pos (by simp), show [2, 1].erase 1 = [2] from rfl, heapify_one]

lemma rectRmQc : rmQ ⟨rectRing, [0, 3, 1]⟩ 1 = ⟨rectRing, [0, 3]⟩ := by
  show EState.mk rectRing (removeFromQueue (lenKey rectRing) [0, 3, 1] 1) = _
  rw [removeFromQueue, if_pos (by simp), show [0, 3, 1].erase 1 = [0, 3] from rfl,
    heapify_two, if_pos (by rw [rectKey0, rectKey3]; norm_num)]

lemma rectRmQd : rmQ ⟨rectRing, [0, 3]⟩ 3 = ⟨rectRing, [0]⟩ := by
  show EState.mk rectRing (removeFromQueue (lenKey rectRing) [0, 3] 3) = _
  rw [removeFromQueue, if_pos (by simp), show [0, 3].erase 3 = [0] from rfl, heapify_one]

lemma rectEnQa : enQ ⟨rectRing, [2]⟩ 3 = ⟨rectRing, [2, 3]⟩ := by
  show EState.mk rectRing (enqueue (lenKey rectRing) [2] 3) = _
  rw [enqueue, if_neg (by simp), heapPush_one,
    if_neg (by rw [rectKey3, rectKey2]; norm_num)]

lemma rectEnQb : enQ ⟨rectRing, [2, 3]⟩ 0 = ⟨rectRing, [2, 3, 0]⟩ := by
  show EState.mk rectRing (enqueue (lenKey rectRing) [2, 3] 0) = _
  rw [enqueue, if_neg (by simp), heapPush_two,
    if_neg (by rw [rectKey0, rectKey2]; norm_num)]

lemma rectEnQc : enQ ⟨rectRing, [2, 3, 0]⟩ 1 = ⟨rectRing, [2, 3, 0, 1]⟩ := by
  show EState.mk rectRing (enqueue (lenKey rectRing) [2, 3, 0] 1) = _
  rw [enqueue, if_neg (by simp), heapPush_three,
    if_neg (by rw [rectKey1, rectKey3]; norm_num)]

lemma rectEnQd : enQ ⟨rectRing, [0]⟩ 1 = ⟨rectRing, [0, 1]⟩ := by
  show EState.mk rectRing (enqueue (lenKey rectRing) [0] 1) = _
  rw [enqueue, if_neg (by simp), heapPush_one,
    if_neg (by rw [rectKey1, rectKey0]; norm_num)]

lemma rectEnQe : enQ ⟨rectRing, [0, 1]⟩ 2 = ⟨rectRing, [0, 1, 2]⟩ := by
  show EState.mk rectRing (enqueue (lenKey rectRing) [0, 1] 2) = _
  rw [enqueue, if_neg (by simp), heapPush_two,
    if_neg (by rw [rectKey2, rectKey0]; norm_num)]

lemma rectEnQf : enQ ⟨rectRing, [0, 1, 2]⟩ 3 = ⟨rectRing, [0, 1, 2, 3]⟩ := by
  show EState.mk rectRing (enqueue (lenKey rectRing) [0, 1, 2] 3) = _
  rw [enqueue, if_neg (by simp), heapPush_three,
    if_neg (by rw [rectKey3, rectKey1]; norm_num)]

/-- The regression write-back on segment 0 recomputes its current endpoints:
the ring is unchanged. -/
lemma rectUpdate0 : Ring.update rectRing 0 (0, 0) (1, 0) = rectRing := by
  rw [Ring.update, if_pos (by simp [rectRing])]
  refine congrArg₂ RingSt.mk ?_ rfl
  funext i
  rcases i with _ | _ | _ | _ | j <;>
    simp [setSeg, rectRing, rectStore, Function.update_apply]

/-- The regression write-back on segment 2 recomputes its current endpoints:
the ring is unchanged. -/
lemma rectUpdate2 : Ring.update rectRing 2 (1, 10) (0, 10) = rectRing := by
  rw [Ring.update, if_pos (by simp [rectRing])]
  refine congrArg₂ RingSt.mk ?_ rfl
  funext i
  rcases i with _ | _ | _ | _ | j <;>
    simp [setSeg, rectRing, rectStore, Function.update_apply]

lemma rectRegress0 : segmentRegression ⟨rectRing, [2, 1, 3]⟩ 0 = .ok ⟨rectRing, [2, 3, 0, 1]⟩ := by
  simp only [segmentRegression, rectPrv0, rectNxt0, rectRmQa, rectRmQb,
    rectQ1_0, rectQ2_0, rectRingIds, rectUpdate0, rectEnQa, rectEnQb, rectEnQc]
  norm_num

lemma rectRegress2 : segmentRegression ⟨rectRing, [0, 3, 1]⟩ 2 = .ok ⟨rectRing, [0, 1, 2, 3]⟩ := by
  simp only [segmentRegression, rectPrv2, rectNxt2, rectRmQc, rectRmQd,
    rectQ1_2, rectQ2_2, rectRingIds, rectUpdate2, rectEnQd, rectEnQe, rectEnQf]
  norm_num

lemma absPiDiffA : |3 * π / 2 - π / 2| = π := by
  rw [show 3 * π / 2 - π / 2 = π by ring]; exact abs_of_pos Real.pi_pos

lemma absPiDiffB : |π / 2 - 3 * π / 2| = π := by
  rw [show π / 2 - 3 * π / 2 = -π by ring, abs_neg]; exact abs_of_pos Real.pi_pos

lemma absPiSubTwoPi : |π - 2 * π| = π := by
  rw [show π - 2 * π = -π by ring, abs_neg]; exact abs_of_pos Real.pi_pos

lemma rectAlpha0 : foldedAlpha rectRing 0 = π := by
  simp only [foldedAlpha, rectRingStore, rectStore0]
  rw [rectSlope3, rectSlope1]
  rw [if_neg (by rw [absPiDiffA]; exact lt_irrefl π)]
  simp only [absPiDiffA, absPiSubTwoPi, min_self]

lemma rectAlpha2 : foldedAlpha rectRing 2 = π := by
  simp only [foldedAlpha, rectRingStore, rectStore2]
  rw [rectSlope1, rectSlope3]
  rw [if_neg (by rw [absPiDiffB]; exact lt_irrefl π)]
  simp only [absPiDiffB, absPiSubTwoPi, min_self]

/-- First loop iteration on the rectangle: segment 0 is popped and regressed;
the ring is unchanged and the queue becomes `[2, 3, 0, 1]`. -/
lemma rectIter1 : loopStep 2 π 0 none false ⟨rectRing, [0, 1, 2, 3]⟩ =
    .ok ⟨rectRing, [2, 3, 0, 1]⟩ := by
  simp only [loopStep]
  rw [heapPop_four,
    if_neg (by rw [rectKey1, rectKey2]; norm_num :
      ¬ lenKey rectRing 1 < lenKey rectRing 2),
    if_neg (by rw [rectKey3, rectKey2]; norm_num :
      ¬ lenKey rectRing 3 < lenKey rectRing 2)]
  simp only []
  rw [if_neg (by rintro ⟨h1, h2⟩; linarith :
    ¬ (π - 0 < popAngle rectRing 0 ∧ popAngle rectRing 0 < π + 0))]
  rw [if_pos (by rw [show rectRing.store 0 = rectStore 0 from rfl, rectLen0]; norm_num :
    segLen (rectRing.store 0) ≤ 2)]
  rw [if_pos (by rw [rectAlpha0]; exact ⟨Real.pi_pos.le, le_refl π⟩ :
    0 ≤ foldedAlpha rectRing 0 ∧ foldedAlpha rectRing 0 ≤ π)]
  rw [condSegRegression, if_neg (by simp)]
  exact rectRegress0

/-- Second loop iteration: segment 2 is popped and regressed; the state
returns exactly to the initial one. -/
lemma rectIter2 : loopStep 2 π 0 none false ⟨rectRing, [2, 3, 0, 1]⟩ =
    .ok ⟨rectRing, [0, 1, 2, 3]⟩ := by
  simp only [loopStep]
  rw [heapPop_four,
    if_neg (by rw [rectKey3, rectKey0]; norm_num :
      ¬ lenKey rectRing 3 < lenKey rectRing 0),
    if_neg (by rw [rectKey1, rectKey0]; norm_num :
      ¬ lenKey rectRing 1 < lenKey rectRing 0)]
  simp only []
  rw [if_neg (by rintro ⟨h1, h2⟩; linarith :
    ¬ (π - 0 < popAngle rectRing 2 ∧ popAngle rectRing 2 < π + 0))]
  rw [if_pos (by rw [show rectRing.store 2 = rectStore 2 from rfl, rectLen2]; norm_num :
    segLen (rectRing.store 2) ≤ 2)]
  rw [if_pos (by rw [rectAlpha2]; exact ⟨Real.pi_pos.le, le_refl π⟩ :
    0 ≤ foldedAlpha rectRing 2 ∧ foldedAlpha rectRing 2 ≤ π)]
  rw [condSegRegression, if_neg (by simp)]
  exact rectRegress2

lemma rectDone1 : loopDone ⟨rectRing, [0, 1, 2, 3]⟩ = false := rfl

lemma rectDone2 : loopDone ⟨rectRing, [2, 3, 0, 1]⟩ = false := rfl

/-- The rectangle run never terminates: from either of the two states of its
period-2 cycle, every amount of fuel is exhausted. -/
lemma rectRun_err (fuel : Nat) :
    runLoop 2 π 0 none false fuel ⟨rectRing, [0, 1, 2, 3]⟩ = .error "fuel exhausted" ∧
    runLoop 2 π 0 none false fuel ⟨rectRing, [2, 3, 0, 1]⟩ = .error "fuel exhausted" := by
  induction fuel with
  | zero =>
    constructor
    · rw [runLoop, if_neg (by rw [rectDone1]; exact Bool.false_ne_true)]
    · rw [runLoop, if_neg (by rw [rectDone2]; exact Bool.false_ne_true)]
  | succ n ih =>
    constructor
    · rw [runLoop, if_neg (by rw [rectDone1]; exact Bool.false_ne_true), rectIter1]
      exact ih.2
    · rw [runLoop, if_neg (by rw [rectDone2]; exact Bool.false_ne_true), rectIter2]
      exact ih.1

lemma rectInitState : initState rectRing = ⟨rectRing, [0, 1, 2, 3]⟩ := by
  rw [initState, initQueue_rect]

/-- `simplify_ring` on the rectangle with `tau = 2`, `epsilon = π`,
`delta = 0` runs out of any amount of fuel: the Python loop never
terminates. -/
lemma rectSimplifyRing_diverges (fuel : Nat) :
    simplifyRing fuel rectCoords 2 π 0 none false = .error "fuel exhausted" := by
  rw [simplifyRing, ringInit_rect]
  show (runLoop 2 π 0 none false fuel (initState rectRing)).bind _ = _
  rw [rectInitState, (rectRun_err fuel).1]
  rfl

/-!
## A concrete run: the collinear triangle `(0,0), (4,0), (8,0)`

Input ring `(0,0), (4,0), (8,0), (0,0)` with parameters `tau = 1`,
`epsilon = 3/2`, `delta = 1/10`, `gamma = None`, `merge_first = False` (all
valid).  The first iteration pops segment 0, the collinearity test fires
(`angle = π`), and `remove_middle_point` merges it away; the ring then has 2
segments and the loop stops.  The final coordinate sequence is the closed
3-entry `(0,0), (8,0), (0,0)`, which passes the `len >= 3` acceptance test
but is then rejected by the `LinearRing` constructor (a closed sequence of
fewer than 4 points): the run raises.
-/

/-- The collinear input coordinates (closed). -/
def colCoords : List Point := [(0, 0), (4, 0), (8, 0), (0, 0)]

/-- The three segment objects created by `Ring.__init__` on `colCoords`. -/
def colStore : Nat → SegData := fun i =>
  if i = 0 then { sp := (0, 0), ep := (4, 0), prv := 2, nxt := 1 }
  else if i = 1 then { sp := (4, 0), ep := (8, 0), prv := 0, nxt := 2 }
  else if i = 2 then { sp := (8, 0), ep := (0, 0), prv := 1, nxt := 0 }
  else { sp := (0, 0), ep := (0, 0), prv := i, nxt := i }

/-- The collinear ring. -/
def colRing : RingSt := { store := colStore, ids := [0, 1, 2] }

/-- The ring after the merge of segment 0: segment 1 absorbs its point. -/
def colStore2 : Nat → SegData := fun i =>
  if i = 0 then { sp := (0, 0), ep := (4, 0), prv := 2, nxt := 1 }
  else if i = 1 then { sp := (0, 0), ep := (8, 0), prv := 2, nxt := 2 }
  else if i = 2 then { sp := (8, 0), ep := (0, 0), prv := 1, nxt := 1 }
  else { sp := (0, 0), ep := (0, 0), prv := i, nxt := i }

/-- The collinear ring after one iteration. -/
def colRing2 : RingSt := { store := colStore2, ids := [1, 2] }

lemma sqrtSixteen : Real.sqrt 16 = 4 := by
  rw [show (16 : ℝ) = 4 ^ 2 by norm_num, Real.sqrt_sq (by norm_num : (0 : ℝ) ≤ 4)]

lemma sqrtSixtyFour : Real.sqrt 64 = 8 := by
  rw [show (64 : ℝ) = 8 ^ 2 by norm_num, Real.sqrt_sq (by norm_num : (0 : ℝ) ≤ 8)]

lemma colKey0 : lenKey colRing 0 = 4 := by
  simp [lenKey, colRing, colStore, segLen, ptDist, sqrtSixteen]

lemma colKey1 : lenKey colRing 1 = 4 := by
  simp [lenKey, colRing, colStore, segLen, ptDist]
  rw [show ((4 : ℝ) - 8) ^ 2 = 16 by norm_num, sqrtSixteen]

lemma colKey2 : lenKey colRing 2 = 8 := by
  simp [lenKey, colRing, colStore, segLen, ptDist, sqrtSixtyFour]

lemma colKey2b : lenKey colRing2 1 = 8 := by
  simp [lenKey, colRing2, colStore2, segLen, ptDist, sqrtSixtyFour]

lemma colKey2c : lenKey colRing2 2 = 8 := by
  simp [lenKey, colRing2, colStore2, segLen, ptDist, sqrtSixtyFour]

/-- `Ring.__init__` on the collinear input produces `colRing`. -/
lemma ringInit_col : ringInit colCoords = .ok colRing := by
  rw [ringInit]
  rw [show colCoords.length - 1 = 3 by rw [colCoords]; rfl]
  rw [if_neg (by norm_num)]
  refine congrArg Except.ok ?_
  refine congrArg₂ RingSt.mk ?_ rfl
  funext i
  rcases i with _ | _ | _ | j
  · norm_num [colCoords, colStore]
  · norm_num [colCoords, colStore]
  · norm_num [colCoords, colStore]
  · have h3 : ¬ (j + 3 < 3) := by omega
    rw [if_neg h3, colStore]
    norm_num
    split_ifs with hc1
    · exact absurd hc1 (by omega)
    · rfl

/-- The initial queue on the collinear ring is `[0, 1, 2]`. -/
lemma initQueue_col : initQueue colRing = [0, 1, 2] := by
  rw [initQueue, show colRing.ids = [0, 1, 2] from rfl]
  rw [List.foldl_cons, List.foldl_cons, List.foldl_cons, List.foldl_nil]
  rw [show enqueue (lenKey colRing) [] 0 = heapPush (lenKey colRing) [] 0 from
    if_neg (by simp), heapPush_nil]
  rw [show enqueue (lenKey colRing) [0] 1 = heapPush (lenKey colRing) [0] 1 from
    if_neg (by simp), heapPush_one,
    if_neg (by rw [colKey0, colKey1]; norm_num)]
  rw [show enqueue (lenKey colRing) [0, 1] 2 = heapPush (lenKey colRing) [0, 1] 2 from
    if_neg (by simp), heapPush_two,
    if_neg (by rw [colKey0, colKey2]; norm_num)]

lemma colRingStore : colRing.store = colStore := rfl

/-- The popped segment 0 is exactly collinear with its successor: the bend
angle is `arccos(-1) = π`. -/
lemma colPopAngle : popAngle colRing 0 = π := by
  rw [popAngle, colRingStore,
    show (colStore 0).nxt = 1 from rfl,
    show (colStore 0).sp = (0, 0) from rfl,
    show (colStore 0).ep = (4, 0) from rfl,
    show (colStore 1).ep = (8, 0) from rfl, bendAngle]
  norm_num [sqrtSixteen]

/-- `Ring.merge` of segment 0 on the collinear ring. -/
lemma colMerge : Ring.merge colRing 0 = colRing2 := by
  rw [Ring.merge, if_pos (by simp [colRing])]
  refine congrArg₂ RingSt.mk ?_ rfl
  funext i
  rcases i with _ | _ | _ | j <;>
    simp [setSeg, colRing, colStore, colStore2, Function.update_apply]

lemma colRFQ : removeFromQueue (lenKey colRing) [1, 2] 1 = [2] := by
  rw [removeFromQueue, if_pos (by simp), show [1, 2].erase 1 = [2] from rfl, heapify_one]

/-- `remove_middle_point` written without the intermediate states. -/
lemma removeMiddlePoint_eq (st : EState) (i : Nat) :
    removeMiddlePoint st i =
      enQ ⟨Ring.merge st.ring i,
          removeFromQueue (lenKey st.ring) st.queue ((st.ring.store i).nxt)⟩
        (((Ring.merge st.ring i).store i).nxt) := rfl

lemma colEnQ : enQ ⟨colRing2, [2]⟩ 1 = ⟨colRing2, [2, 1]⟩ := by
  show EState.mk colRing2 (enqueue (lenKey colRing2) [2] 1) = _
  rw [enqueue, if_neg (by simp), heapPush_one,
    if_neg (by rw [colKey2b, colKey2c]; norm_num)]

/-- `remove_middle_point` on the popped collinear segment 0. -/
lemma colRMP : removeMiddlePoint ⟨colRing, [1, 2]⟩ 0 = ⟨colRing2, [2, 1]⟩ := by
  rw [removeMiddlePoint_eq]
  dsimp only
  rw [show (colRing.store 0).nxt = 1 from rfl, colMerge, colRFQ,
    show (colRing2.store 0).nxt = 1 from rfl, colEnQ]

/-- First loop iteration on the collinear ring: segment 0 is popped and
merged away by the collinearity branch. -/
lemma colIter1 : loopStep 1 (3 / 2) (1 / 10) none false ⟨colRing, [0, 1, 2]⟩ =
    .ok ⟨colRing2, [2, 1]⟩ := by
  simp only [loopStep]
  rw [heapPop_three,
    if_neg (by rw [colKey2, colKey1]; norm_num :
      ¬ lenKey colRing 2 < lenKey colRing 1)]
  simp only []
  rw [if_pos (by rw [colPopAngle]; constructor <;> norm_num :
    π - 1 / 10 < popAngle colRing 0 ∧ popAngle colRing 0 < π + 1 / 10)]
  exact congrArg Except.ok colRMP

lemma colDone0 : loopDone ⟨colRing, [0, 1, 2]⟩ = false := rfl

lemma colDone2 : loopDone ⟨colRing2, [2, 1]⟩ = true := rfl

/-- The collinear run stops after one iteration. -/
lemma colRun : runLoop 1 (3 / 2) (1 / 10) none false 2 ⟨colRing, [0, 1, 2]⟩ =
    .ok ⟨colRing2, [2, 1]⟩ := by
  rw [runLoop, if_neg (by rw [colDone0]; exact Bool.false_ne_true), colIter1]
  show runLoop 1 (3 / 2) (1 / 10) none false 1 ⟨colRing2, [2, 1]⟩ = _
  rw [runLoop, if_pos colDone2]

/-- The final coordinates of the collinear run: two distinct points. -/
lemma colCoordsOut : Ring.coordinates colRing2 = [(0, 0), (8, 0), (0, 0)] := rfl

/-- The `LinearRing` constructor rejects the collinear run's final closed
3-entry sequence. -/
lemma colLinearRing : linearRing [(0, 0), (8, 0), (0, 0)] =
    .error "IllegalArgumentException: Invalid number of points in LinearRing found 3 - must be 0 or >= 4" := by
  rw [linearRing]
  rw [if_neg (show ¬ ([(0, 0), (8, 0), (0, 0)] : List Point).length < 3 by norm_num)]
  dsimp only
  rw [if_pos (show ([(0, 0), (8, 0), (0, 0)] : List Point).getD 0 (0, 0) =
    ([(0, 0), (8, 0), (0, 0)] : List Point).getD
      (([(0, 0), (8, 0), (0, 0)] : List Point).length - 1) (0, 0) from rfl)]
  rw [if_pos (show ([(0, 0), (8, 0), (0, 0)] : List Point).length < 4 by norm_num)]

/-- `simplify_ring` on the collinear triangle raises: the final ring has 3
coordinates, so it is not rejected as degenerate, but the `LinearRing`
constructor refuses the closed 3-entry sequence. -/
lemma colSimplify : simplifyRing 2 colCoords 1 (3 / 2) (1 / 10) none false =
    .error "IllegalArgumentException: Invalid number of points in LinearRing found 3 - must be 0 or >= 4" := by
  rw [simplifyRing, ringInit_col]
  show (runLoop 1 (3 / 2) (1 / 10) none false 2 (initState colRing)).bind _ = _
  rw [initState, initQueue_col, colRun]
  show (if (Ring.coordinates colRing2).length < 3 then
      (pure none : Except String (Option (List Point)))
    else (linearRing (Ring.coordinates colRing2)).bind (fun lr => pure (some lr))) = _
  rw [colCoordsOut]
  rw [if_neg (show ¬ ([(0, 0), (8, 0), (0, 0)] : List Point).length < 3 by norm_num)]
  rw [colLinearRing]
  rfl

/-!
## A concrete run: the equilateral triangle

Input ring `(0,0), (1,0), (1/2, √3/2), (0,0)` with the same parameters
`tau = 1`, `epsilon = 3/2`, `delta = 1/10`.  The popped base is neither
collinear with its successor nor nearly parallel to its neighbours, but the
neighbours are nearly anti-parallel (`π - α = π/3 ≤ 3/2`), so
`translate_segment` fires; its equal-length branch removes both neighbours,
the ring drops to one segment, and the final coordinate sequence has 2
entries: the ring is rejected (`None`) before any constructor runs.
-/

/-- The triangle apex. -/
def triC : Point := (1 / 2, Real.sqrt 3 / 2)

/-- The triangle's input coordinates (closed). -/
def triCoords : List Point := [(0, 0), (1, 0), triC, (0, 0)]

/-- The three segment objects created by `Ring.__init__` on `triCoords`. -/
def triStore : Nat → SegData := fun i =>
  if i = 0 then { sp := (0, 0), ep := (1, 0), prv := 2, nxt := 1 }
  else if i = 1 then { sp := (1, 0), ep := triC, prv := 0, nxt := 2 }
  else if i = 2 then { sp := triC, ep := (0, 0), prv := 1, nxt := 0 }
  else { sp := (0, 0), ep := (0, 0), prv := i, nxt := i }

/-- The triangle ring. -/
def triRing : RingSt := { store := triStore, ids := [0, 1, 2] }

/-- The store after `ring.update(seg0, apex, apex)` inside
`translate_segment`. -/
def triStoreM : Nat → SegData := fun i =>
  if i = 0 then { sp := triC, ep := triC, prv := 2, nxt := 1 }
  else if i = 1 then { sp := triC, ep := triC, prv := 0, nxt := 2 }
  else if i = 2 then { sp := triC, ep := triC, prv := 1, nxt := 0 }
  else { sp := (0, 0), ep := (0, 0), prv := i, nxt := i }

def triRingM : RingSt := { store := triStoreM, ids := [0, 1, 2] }

/-- The store after the first `ring.remove` (segment 1). -/
def triStoreN : Nat → SegData := fun i =>
  if i = 0 then { sp := triC, ep := triC, prv := 2, nxt := 2 }
  else if i = 1 then { sp := triC, ep := triC, prv := 0, nxt := 2 }
  else if i = 2 then { sp := triC, ep := triC, prv := 0, nxt := 0 }
  else { sp := (0, 0), ep := (0, 0), prv := i, nxt := i }

def triRingN : RingSt := { store := triStoreN, ids := [0, 2] }

/-- The final store: one degenerate segment at the apex. -/
def triStore2 : Nat → SegData := fun i =>
  if i = 0 then { sp := triC, ep := triC, prv := 0, nxt := 0 }
  else if i = 1 then { sp := triC, ep := triC, prv := 0, nxt := 2 }
  else if i = 2 then { sp := triC, ep := triC, prv := 0, nxt := 0 }
  else { sp := (0, 0), ep := (0, 0), prv := i, nxt := i }

def triRing2 : RingSt := { store := triStore2, ids := [0] }

lemma sqrtThreeSq : Real.sqrt 3 ^ 2 = 3 := Real.sq_sqrt (by norm_num)

lemma arccosHalf : Real.arccos (1 / 2) = π / 3 := by
  rw [show (1 / 2 : ℝ) = Real.cos (π / 3) from Real.cos_pi_div_three.symm]
  exact Real.arccos_cos (by positivity) (by linarith [Real.pi_pos])

lemma arctanSqrtThree : Real.arctan (Real.sqrt 3) = π / 3 := by
  rw [show Real.sqrt 3 = Real.tan (π / 3) from Real.tan_pi_div_three.symm]
  exact Real.arctan_tan (by linarith [Real.pi_pos]) (by linarith [Real.pi_pos])

lemma triRingStore : triRing.store = triStore := rfl

lemma triLen0 : segLen (triStore 0) = 1 := by
  rw [show triStore 0 =
    { sp := (0, 0), ep := (1, 0), prv := 2, nxt := 1 } from rfl, segLen, ptDist]
  dsimp only
  norm_num

lemma triLen1 : segLen (triStore 1) = 1 := by
  rw [show triStore 1 =
    { sp := ((1 : ℝ), (0 : ℝ)), ep := (1 / 2, Real.sqrt 3 / 2), prv := 0,
      nxt := 2 } from rfl, segLen, ptDist]
  dsimp only
  have h : ((1 : ℝ) - 1 / 2) ^ 2 + ((0 : ℝ) - Real.sqrt 3 / 2) ^ 2 = 1 := by
    have h2 : ((0 : ℝ) - Real.sqrt 3 / 2) ^ 2 = Real.sqrt 3 ^ 2 / 4 := by ring
    rw [h2, sqrtThreeSq]
    norm_num
  rw [h, Real.sqrt_one]

lemma triLen2 : segLen (triStore 2) = 1 := by
  rw [show triStore 2 =
    { sp := ((1 : ℝ) / 2, Real.sqrt 3 / 2), ep := ((0 : ℝ), (0 : ℝ)), prv := 1,
      nxt := 0 } from rfl, segLen, ptDist]
  dsimp only
  have h : ((1 : ℝ) / 2 - 0) ^ 2 + (Real.sqrt 3 / 2 - 0) ^ 2 = 1 := by
    have h2 : (Real.sqrt 3 / 2 - (0 : ℝ)) ^ 2 = Real.sqrt 3 ^ 2 / 4 := by ring
    rw [h2, sqrtThreeSq]
    norm_num
  rw [h, Real.sqrt_one]

lemma triKey0 : lenKey triRing 0 = 1 := triLen0

lemma triKey1 : lenKey triRing 1 = 1 := triLen1

lemma triKey2 : lenKey triRing 2 = 1 := triLen2

/-- `Ring.__init__` on the triangle produces `triRing`. -/
lemma ringInit_tri : ringInit triCoords = .ok triRing := by
  rw [ringInit]
  rw [show triCoords.length - 1 = 3 by rw [triCoords]; rfl]
  rw [if_neg (by norm_num)]
  refine congrArg Except.ok ?_
  refine congrArg₂ RingSt.mk ?_ rfl
  funext i
  rcases i with _ | _ | _ | j
  · norm_num [triCoords, triStore]
  · norm_num [triCoords, triStore]
  · norm_num [triCoords, triStore]
  · have h3 : ¬ (j + 3 < 3) := by omega
    rw [if_neg h3, triStore]
    norm_num
    split_ifs with hc1
    · exact absurd hc1 (by omega)
    · rfl

/-- The initial queue on the triangle is `[0, 1, 2]` (all keys equal). -/
lemma initQueue_tri : initQueue triRing = [0, 1, 2] := by
  rw [initQueue, show triRing.ids = [0, 1, 2] from rfl]
  rw [List.foldl_cons, List.foldl_cons, List.foldl_cons, List.foldl_nil]
  rw [show enqueue (lenKey triRing) [] 0 = heapPush (lenKey triRing) [] 0 from
    if_neg (by simp), heapPush_nil]
  rw [show enqueue (lenKey triRing) [0] 1 = heapPush (lenKey triRing) [0] 1 from
    if_neg (by simp), heapPush_one,
    if_neg (by rw [triKey0, triKey1]; norm_num)]
  rw [show enqueue (lenKey triRing) [0, 1] 2 = heapPush (lenKey triRing) [0, 1] 2 from
    if_neg (by simp), heapPush_two,
    if_neg (by rw [triKey0, triKey2]; norm_num)]

/-- Popping the triangle's queue returns segment 0 (the tie is broken by heap
position, as CPython does). -/
lemma triPop : heapPop (lenKey triRing) [0, 1, 2] = some (0, [1, 2]) := by
  rw [heapPop_three, if_neg (by rw [triKey2, triKey1]; norm_num)]

/-- The bend angle at the popped base: `arccos(1/2) = π/3`. -/
lemma triPopAngle : popAngle triRing 0 = π / 3 := by
  rw [popAngle, triRingStore,
    show (triStore 0).nxt = 1 from rfl,
    show (triStore 0).sp = (0, 0) from rfl,
    show (triStore 0).ep = (1, 0) from rfl,
    show (triStore 1).ep = ((1 : ℝ) / 2, Real.sqrt 3 / 2) from rfl, bendAngle]
  dsimp only
  have h1 : ((0 : ℝ) - 1) ^ 2 + ((0 : ℝ) - 0) ^ 2 = 1 := by norm_num
  have h2 : ((1 : ℝ) / 2 - 1) ^ 2 + (Real.sqrt 3 / 2 - 0) ^ 2 = 1 := by
    have h3 : (Real.sqrt 3 / 2 - (0 : ℝ)) ^ 2 = Real.sqrt 3 ^ 2 / 4 := by ring
    rw [h3, sqrtThreeSq]
    norm_num
  rw [h1, h2, Real.sqrt_one]
  rw [show ((0 : ℝ) - 1) * (1 / 2 - 1) + ((0 : ℝ) - 0) * (Real.sqrt 3 / 2 - 0) = 1 / 2
    by ring]
  rw [show ((1 : ℝ) / 2) / (1 * 1) = 1 / 2 by norm_num]
  rw [show max (-1) (min 1 ((1 : ℝ) / 2)) = 1 / 2 by norm_num]
  exact arccosHalf

/-- Slope of the left leg (apex to origin): `4π/3`. -/
lemma triSlope2 : slopeAsAngle (triStore 2) = 4 * π / 3 := by
  rw [slopeAsAngle,
    show triStore 2 =
      { sp := ((1 : ℝ) / 2, Real.sqrt 3 / 2), ep := ((0 : ℝ), (0 : ℝ)),
        prv := 1, nxt := 0 } from rfl]
  dsimp only
  rw [atan2]
  rw [if_neg (by norm_num : ¬ (0 : ℝ) < 0 - 1 / 2),
    if_neg (by norm_num : ¬ (0 : ℝ) - 1 / 2 = 0),
    if_neg (show ¬ (0 : ℝ) ≤ 0 - Real.sqrt 3 / 2 by
      have h3 : 0 < Real.sqrt 3 := Real.sqrt_pos.2 (by norm_num)
      intro h
      nlinarith)]
  rw [show ((0 : ℝ) - Real.sqrt 3 / 2) / ((0 : ℝ) - 1 / 2) = Real.sqrt 3 by ring]
  rw [arctanSqrtThree]
  rw [if_pos (by linarith [Real.pi_pos] : π / 3 - π < 0)]
  ring

/-- Slope of the right leg (base end to apex): `2π/3`. -/
lemma triSlope1 : slopeAsAngle (triStore 1) = 2 * π / 3 := by
  rw [slopeAsAngle,
    show triStore 1 =
      { sp := ((1 : ℝ), (0 : ℝ)), ep := ((1 : ℝ) / 2, Real.sqrt 3 / 2),
        prv := 0, nxt := 2 } from rfl]
  dsimp only
  rw [atan2]
  rw [if_neg (by norm_num : ¬ (0 : ℝ) < 1 / 2 - 1),
    if_neg (by norm_num : ¬ (1 : ℝ) / 2 - 1 = 0),
    if_pos (show (0 : ℝ) ≤ Real.sqrt 3 / 2 - 0 by
      have h3 : 0 ≤ Real.sqrt 3 := Real.sqrt_nonneg 3
      linarith)]
  rw [show (Real.sqrt 3 / 2 - (0 : ℝ)) / ((1 : ℝ) / 2 - 1) = -Real.sqrt 3 by ring]
  rw [Real.arctan_neg, arctanSqrtThree]
  rw [if_neg (by linarith [Real.pi_pos] : ¬ -(π / 3) + π < 0)]
  ring

/-- The folded angular difference of the popped base's neighbours: `2π/3`. -/
lemma triAlpha : foldedAlpha triRing 0 = 2 * π / 3 := by
  rw [foldedAlpha, triRingStore,
    show (triStore 0).prv = 2 from rfl,
    show (triStore 0).nxt = 1 from rfl, triSlope2, triSlope1]
  rw [if_neg (by
    rw [show (4 * π / 3 - 2 * π / 3 : ℝ) = 2 * π / 3 by ring,
      abs_of_pos (by linarith [Real.pi_pos] : (0 : ℝ) < 2 * π / 3)]
    linarith [Real.pi_pos])]
  dsimp only
  rw [show (4 * π / 3 - 2 * π / 3 : ℝ) = 2 * π / 3 by ring,
    abs_of_pos (by linarith [Real.pi_pos] : (0 : ℝ) < 2 * π / 3),
    show |2 * π / 3 - 2 * π| = 4 * π / 3 by
      rw [show (2 * π / 3 - 2 * π : ℝ) = -(4 * π / 3) by ring, abs_neg,
        abs_of_pos (by linarith [Real.pi_pos] : (0 : ℝ) < 4 * π / 3)]]
  exact min_eq_left (by linarith [Real.pi_pos])

lemma triRFQ1 : removeFromQueue (lenKey triRing) [1, 2] 2 = [1] := by
  rw [removeFromQueue, if_pos (by simp), show [1, 2].erase 2 = [1] from rfl, heapify_one]

lemma triRFQ2 : removeFromQueue (lenKey triRing) [1] 1 = [] := by
  rw [removeFromQueue, if_pos (by simp), show [1].erase 1 = [] from rfl, heapify_nil]

/-- The regression write of `translate_segment`'s equal-length branch:
`ring.update(seg0, apex, apex)`. -/
lemma triUpd : Ring.update triRing 0 triC triC = triRingM := by
  rw [Ring.update, if_pos (by simp [triRing])]
  refine congrArg₂ RingSt.mk ?_ rfl
  funext i
  rcases i with _ | _ | _ | j <;>
    simp [setSeg, triRing, triStore, triStoreM, Function.update_apply]

/-- The first removal of `translate_segment`'s equal-length branch. -/
lemma triRem1 : Ring.remove triRingM 1 triC = triRingN := by
  rw [Ring.remove, if_pos (by simp [triRingM])]
  refine congrArg₂ RingSt.mk ?_ rfl
  funext i
  rcases i with _ | _ | _ | j <;>
    simp [setSeg, triRingM, triStoreM, triStoreN, Function.update_apply]

/-- The second removal of `translate_segment`'s equal-length branch. -/
lemma triRem2 : Ring.remove triRingN 2 triC = triRing2 := by
  rw [Ring.remove, if_pos (by simp [triRingN])]
  refine congrArg₂ RingSt.mk ?_ rfl
  funext i
  rcases i with _ | _ | _ | j <;>
    simp [setSeg, triRingN, triStoreN, triStore2, Function.update_apply]

/-- `translate_segment` on the popped base: both neighbours are removed and
the ring collapses to one degenerate segment. -/
lemma triTranslate : translateSegment ⟨triRing, [1, 2]⟩ 0 = ⟨triRing2, [0]⟩ := by
  rw [translateSegment]
  dsimp only [rmQ]
  rw [triRingStore,
    show (triStore 0).prv = 2 from rfl,
    show (triStore 0).nxt = 1 from rfl,
    triRFQ1, triRFQ2, triLen2, triLen1]
  rw [if_neg (by norm_num : ¬ (1 : ℝ) < 1)]
  rw [if_neg (by norm_num : ¬ (1 : ℝ) < 1)]
  rw [show (triStore 2).sp = triC from rfl,
    show (triStore 1).ep = triC from rfl]
  rw [triUpd]
  rw [show (triRingM.store 0).nxt = 1 from rfl,
    show (triRingM.store 0).ep = triC from rfl, triRem1]
  rw [show (triRingN.store 0).prv = 2 from rfl,
    show (triRingN.store 0).sp = triC from rfl, triRem2]
  show enQ ⟨triRing2, []⟩ 0 = ⟨triRing2, [0]⟩
  show EState.mk triRing2 (enqueue (lenKey triRing2) [] 0) = _
  rw [enqueue, if_neg (by simp), heapPush_nil]

/-- First loop iteration on the triangle: the popped base dispatches to
`translate_segment`. -/
lemma triIter1 : loopStep 1 (3 / 2) (1 / 10) none false ⟨triRing, [0, 1, 2]⟩ =
    .ok ⟨triRing2, [0]⟩ := by
  simp only [loopStep]
  rw [triPop]
  simp only []
  rw [if_neg (show
    ¬ (π - 1 / 10 < popAngle triRing 0 ∧ popAngle triRing 0 < π + 1 / 10) by
    rw [triPopAngle]
    rintro ⟨h1, h2⟩
    have h3 := Real.pi_gt_three
    linarith)]
  rw [if_pos (show segLen (triRing.store 0) ≤ 1 by
    rw [show triRing.store 0 = triStore 0 from rfl, triLen0])]
  rw [if_neg (show
    ¬ (0 ≤ foldedAlpha triRing 0 ∧ foldedAlpha triRing 0 ≤ 3 / 2) by
    rw [triAlpha]
    rintro ⟨h1, h2⟩
    have h3 := Real.pi_gt_three
    linarith)]
  rw [if_pos (show π - foldedAlpha triRing 0 ≤ 3 / 2 by
    rw [triAlpha]
    have h3 := Real.pi_le_four
    linarith)]
  exact congrArg Except.ok triTranslate

lemma triDone0 : loopDone ⟨triRing, [0, 1, 2]⟩ = false := rfl

lemma triDone2 : loopDone ⟨triRing2, [0]⟩ = true := rfl

/-- The triangle run stops after one iteration, with a one-segment ring. -/
lemma triRun : runLoop 1 (3 / 2) (1 / 10) none false 5 ⟨triRing, [0, 1, 2]⟩ =
    .ok ⟨triRing2, [0]⟩ := by
  rw [runLoop, if_neg (by rw [triDone0]; exact Bool.false_ne_true), triIter1]
  show runLoop 1 (3 / 2) (1 / 10) none false 4 ⟨triRing2, [0]⟩ = _
  rw [runLoop, if_pos triDone2]

/-- The final coordinates of the triangle run: 2 entries, so the ring is
rejected. -/
lemma triCoordsOut : Ring.coordinates triRing2 = [triC, triC] := rfl

/-- `simplify_ring` rejects the triangle (returns `None`). -/
lemma triSimplify : simplifyRing 5 triCoords 1 (3 / 2) (1 / 10) none false =
    .ok none := by
  rw [simplifyRing, ringInit_tri]
  show (runLoop 1 (3 / 2) (1 / 10) none false 5 (initState triRing)).bind _ = _
  rw [initState, initQueue_tri, triRun]
  show (if (Ring.coordinates triRing2).length < 3 then
      (pure none : Except String (Option (List Point)))
    else (linearRing (Ring.coordinates triRing2)).bind (fun lr => pure (some lr))) =
    .ok none
  rw [triCoordsOut]
  norm_num
  rfl

/-!
## A concrete run: the 10×10 square

Input ring `(0,0), (10,0), (10,10), (0,10), (0,0)` with parameters `tau = 1`,
`epsilon = 3/2`, `delta = 1/10`.  Every popped segment has a right-angle bend
(`angle = π/2`, not collinear) and length `10 > tau`, so each iteration only
discards the popped segment; after four iterations the queue is empty, the
ring is unchanged, and the closed 5-entry coordinate sequence passes the
`LinearRing` constructor.
-/

/-- The square's input coordinates (closed). -/
def sqCoords : List Point := [(0, 0), (10, 0), (10, 10), (0, 10), (0, 0)]

/-- The four segment objects created by `Ring.__init__` on `sqCoords`. -/
def sqStore : Nat → SegData := fun i =>
  if i = 0 then { sp := (0, 0), ep := (10, 0), prv := 3, nxt := 1 }
  else if i = 1 then { sp := (10, 0), ep := (10, 10), prv := 0, nxt := 2 }
  else if i = 2 then { sp := (10, 10), ep := (0, 10), prv := 1, nxt := 3 }
  else if i = 3 then { sp := (0, 10), ep := (0, 0), prv := 2, nxt := 0 }
  else { sp := (0, 0), ep := (0, 0), prv := i, nxt := i }

/-- The square ring. -/
def sqRing : RingSt := { store := sqStore, ids := [0, 1, 2, 3] }

lemma sqKey0 : lenKey sqRing 0 = 10 := by
  simp [lenKey, sqRing, sqStore, segLen, ptDist, sqrtHundred]

lemma sqKey1 : lenKey sqRing 1 = 10 := by
  simp [lenKey, sqRing, sqStore, segLen, ptDist, sqrtHundred]

lemma sqKey2 : lenKey sqRing 2 = 10 := by
  simp [lenKey, sqRing, sqStore, segLen, ptDist, sqrtHundred]

lemma sqKey3 : lenKey sqRing 3 = 10 := by
  simp [lenKey, sqRing, sqStore, segLen, ptDist, sqrtHundred]

/-- `Ring.__init__` on the square produces `sqRing`. -/
lemma ringInit_sq : ringInit sqCoords = .ok sqRing := by
  rw [ringInit]
  rw [show sqCoords.length - 1 = 4 by rw [sqCoords]; rfl]
  rw [if_neg (by norm_num)]
  refine congrArg Except.ok ?_
  refine congrArg₂ RingSt.mk ?_ rfl
  funext i
  rcases i with _ | _ | _ | _ | j
  · norm_num [sqCoords, sqStore]
  · norm_num [sqCoords, sqStore]
  · norm_num [sqCoords, sqStore]
  · norm_num [sqCoords, sqStore]
  · have h4 : ¬ (j + 4 < 4) := by omega
    rw [if_neg h4, sqStore]
    norm_num
    split_ifs with hc1 hc2
    · exact absurd hc1 (by omega)
    · exact absurd hc2 (by omega)
    · rfl

/-- The initial queue on the square is `[0, 1, 2, 3]` (all keys equal). -/
lemma initQueue_sq : initQueue sqRing = [0, 1, 2, 3] := by
  rw [initQueue, show sqRing.ids = [0, 1, 2, 3] from rfl]
  rw [List.foldl_cons, List.foldl_cons, List.foldl_cons, List.foldl_cons, List.foldl_nil]
  rw [show enqueue (lenKey sqRing) [] 0 = heapPush (lenKey sqRing) [] 0 from
    if_neg (by simp), heapPush_nil]
  rw [show enqueue (lenKey sqRing) [0] 1 = heapPush (lenKey sqRing) [0] 1 from
    if_neg (by simp), heapPush_one,
    if_neg (by rw [sqKey0, sqKey1]; norm_num)]
  rw [show enqueue (lenKey sqRing) [0, 1] 2 = heapPush (lenKey sqRing) [0, 1] 2 from
    if_neg (by simp), heapPush_two,
    if_neg (by rw [sqKey0, sqKey2]; norm_num)]
  rw [show enqueue (lenKey sqRing) [0, 1, 2] 3 = heapPush (lenKey sqRing) [0, 1, 2] 3 from
    if_neg (by simp), heapPush_three,
    if_neg (by rw [sqKey1, sqKey3]; norm_num)]

lemma sqRingStore : sqRing.store = sqStore := rfl

/-- The bend at each corner of the square is a right angle. -/
lemma sqAngle0 : popAngle sqRing 0 = π / 2 := by
  rw [popAngle, sqRingStore,
    show (sqStore 0).nxt = 1 from rfl,
    show (sqStore 0).sp = (0, 0) from rfl,
    show (sqStore 0).ep = (10, 0) from rfl,
    show (sqStore 1).ep = (10, 10) from rfl, bendAngle]
  norm_num [sqrtHundred]

lemma sqAngle1 : popAngle sqRing 1 = π / 2 := by
  rw [popAngle, sqRingStore,
    show (sqStore 1).nxt = 2 from rfl,
    show (sqStore 1).sp = (10, 0) from rfl,
    show (sqStore 1).ep = (10, 10) from rfl,
    show (sqStore 2).ep = (0, 10) from rfl, bendAngle]
  norm_num [sqrtHundred]

lemma sqAngle2 : popAngle sqRing 2 = π / 2 := by
  rw [popAngle, sqRingStore,
    show (sqStore 2).nxt = 3 from rfl,
    show (sqStore 2).sp = (10, 10) from rfl,
    show (sqStore 2).ep = (0, 10) from rfl,
    show (sqStore 3).ep = (0, 0) from rfl, bendAngle]
  norm_num [sqrtHundred]

lemma sqAngle3 : popAngle sqRing 3 = π / 2 := by
  rw [popAngle, sqRingStore,
    show (sqStore 3).nxt = 0 from rfl,
    show (sqStore 3).sp = (0, 10) from rfl,
    show (sqStore 3).ep = (0, 0) from rfl,
    show (sqStore 0).ep = (10, 0) from rfl, bendAngle]
  norm_num [sqrtHundred]

lemma sqLen0 : segLen (sqRing.store 0) = 10 := sqKey0

lemma sqLen1 : segLen (sqRing.store 1) = 10 := sqKey1

lemma sqLen2 : segLen (sqRing.store 2) = 10 := sqKey2

lemma sqLen3 : segLen (sqRing.store 3) = 10 := sqKey3

/-- A square iteration: the popped corner is neither collinear nor short, so
nothing but the pop happens. -/
lemma sqIter1 : loopStep 1 (3 / 2) (1 / 10) none false ⟨sqRing, [0, 1, 2, 3]⟩ =
    .ok ⟨sqRing, [2, 1, 3]⟩ := by
  simp only [loopStep]
  rw [heapPop_four,
    if_neg (by rw [sqKey1, sqKey2]; norm_num :
      ¬ lenKey sqRing 1 < lenKey sqRing 2),
    if_neg (by rw [sqKey3, sqKey2]; norm_num :
      ¬ lenKey sqRing 3 < lenKey sqRing 2)]
  simp only []
  rw [if_neg (show
    ¬ (π - 1 / 10 < popAngle sqRing 0 ∧ popAngle sqRing 0 < π + 1 / 10) by
    rw [sqAngle0]
    rintro ⟨hc, _⟩
    have h3 := Real.pi_gt_three
    linarith)]
  rw [if_neg (show ¬ segLen (sqRing.store 0) ≤ 1 by rw [sqLen0]; norm_num)]

lemma sqIter2 : loopStep 1 (3 / 2) (1 / 10) none false ⟨sqRing, [2, 1, 3]⟩ =
    .ok ⟨sqRing, [1, 3]⟩ := by
  simp only [loopStep]
  rw [heapPop_three,
    if_neg (by rw [sqKey3, sqKey1]; norm_num :
      ¬ lenKey sqRing 3 < lenKey sqRing 1)]
  simp only []
  rw [if_neg (show
    ¬ (π - 1 / 10 < popAngle sqRing 2 ∧ popAngle sqRing 2 < π + 1 / 10) by
    rw [sqAngle2]
    rintro ⟨hc, _⟩
    have h3 := Real.pi_gt_three
    linarith)]
  rw [if_neg (show ¬ segLen (sqRing.store 2) ≤ 1 by rw [sqLen2]; norm_num)]

lemma sqIter3 : loopStep 1 (3 / 2) (1 / 10) none false ⟨sqRing, [1, 3]⟩ =
    .ok ⟨sqRing, [3]⟩ := by
  simp only [loopStep]
  rw [heapPop_two]
  simp only []
  rw [if_neg (show
    ¬ (π - 1 / 10 < popAngle sqRing 1 ∧ popAngle sqRing 1 < π + 1 / 10) by
    rw [sqAngle1]
    rintro ⟨hc, _⟩
    have h3 := Real.pi_gt_three
    linarith)]
  rw [if_neg (show ¬ segLen (sqRing.store 1) ≤ 1 by rw [sqLen1]; norm_num)]

lemma sqIter4 : loopStep 1 (3 / 2) (1 / 10) none false ⟨sqRing, [3]⟩ =
    .ok ⟨sqRing, []⟩ := by
  simp only [loopStep]
  rw [heapPop_one]
  simp only []
  rw [if_neg (show
    ¬ (π - 1 / 10 < popAngle sqRing 3 ∧ popAngle sqRing 3 < π + 1 / 10) by
    rw [sqAngle3]
    rintro ⟨hc, _⟩
    have h3 := Real.pi_gt_three
    linarith)]
  rw [if_neg (show ¬ segLen (sqRing.store 3) ≤ 1 by rw [sqLen3]; norm_num)]

lemma sqDone0 : loopDone ⟨sqRing, [0, 1, 2, 3]⟩ = false := rfl

lemma sqDone1 : loopDone ⟨sqRing, [2, 1, 3]⟩ = false := rfl

lemma sqDone2 : loopDone ⟨sqRing, [1, 3]⟩ = false := rfl

lemma sqDone3 : loopDone ⟨sqRing, [3]⟩ = false := rfl

lemma sqDone4 : loopDone ⟨sqRing, []⟩ = true := rfl

/-- The square run drains its queue in four iterations, leaving the ring
unchanged. -/
lemma sqRun : runLoop 1 (3 / 2) (1 / 10) none false 5 ⟨sqRing, [0, 1, 2, 3]⟩ =
    .ok ⟨sqRing, []⟩ := by
  rw [runLoop, if_neg (by rw [sqDone0]; exact Bool.false_ne_true), sqIter1]
  show runLoop 1 (3 / 2) (1 / 10) none false 4 ⟨sqRing, [2, 1, 3]⟩ = _
  rw [runLoop, if_neg (by rw [sqDone1]; exact Bool.false_ne_true), sqIter2]
  show runLoop 1 (3 / 2) (1 / 10) none false 3 ⟨sqRing, [1, 3]⟩ = _
  rw [runLoop, if_neg (by rw [sqDone2]; exact Bool.false_ne_true), sqIter3]
  show runLoop 1 (3 / 2) (1 / 10) none false 2 ⟨sqRing, [3]⟩ = _
  rw [runLoop, if_neg (by rw [sqDone3]; exact Bool.false_ne_true), sqIter4]
  show runLoop 1 (3 / 2) (1 / 10) none false 1 ⟨sqRing, []⟩ = _
  rw [runLoop, if_pos sqDone4]

lemma sqCoordsOut : Ring.coordinates sqRing = sqCoords := rfl

/-- The closed 5-entry square sequence passes the `LinearRing`
constructor unchanged. -/
lemma linearRing_sq : linearRing sqCoords = .ok sqCoords := by
  rw [linearRing]
  rw [if_neg (show ¬ sqCoords.length < 3 by rw [show sqCoords.length = 5 from rfl]; norm_num)]
  dsimp only
  rw [if_pos (show sqCoords.getD 0 (0, 0) =
    sqCoords.getD (sqCoords.length - 1) (0, 0) from rfl)]
  rw [if_neg (show ¬ sqCoords.length < 4 by rw [show sqCoords.length = 5 from rfl]; norm_num)]

/-- `simplify_ring` accepts the square and returns its closed 5-entry
coordinate sequence. -/
lemma sqSimplify : simplifyRing 5 sqCoords 1 (3 / 2) (1 / 10) none false =
    .ok (some sqCoords) := by
  rw [simplifyRing, ringInit_sq]
  show (runLoop 1 (3 / 2) (1 / 10) none false 5 (initState sqRing)).bind _ = _
  rw [initState, initQueue_sq, sqRun]
  show (if (Ring.coordinates sqRing).length < 3 then
      (pure none : Except String (Option (List Point)))
    else (linearRing (Ring.coordinates sqRing)).bind (fun lr => pure (some lr))) =
    .ok (some sqCoords)
  rw [sqCoordsOut]
  rw [if_neg (show ¬ sqCoords.length < 3 by rw [show sqCoords.length = 5 from rfl]; norm_num)]
  rw [linearRing_sq]
  rfl

/-!
## Supporting lemmas for the per-operator claims
-/

lemma setSeg_ids (r : RingSt) (i : Nat) (f : SegData → SegData) :
    (setSeg r i f).ids = r.ids := rfl

/-- `ring.update` never changes the segment list. -/
lemma Ring.update_ids (r : RingSt) (i : Nat) (sp ep : Point) :
    (Ring.update r i sp ep).ids = r.ids := by
  rw [Ring.update]
  split_ifs <;> rfl

/-!
## Claim C1 (termination bound) and claim C2 (regression absorbs neighbours)
-/

/-- Claim C1 is false: on the closed 1×10 rectangle ring, with the valid
parameters `tau = 2 > 0`, `epsilon = π ∈ [0, π]`, `delta = 0 ∈ [0, π]` and
`gamma` unset, the simplification loop of `simplify_ring` is still running
after 4 iterations, although the initial segment count is 4 — so it does not
terminate within a number of iterations bounded by the initial segment
count. -/
theorem claim1_counterexample :
    ((0 : ℝ) < 2 ∧ ((0 : ℝ) ≤ π ∧ π ≤ π) ∧ ((0 : ℝ) ≤ 0 ∧ (0 : ℝ) ≤ π)) ∧
    ringInit rectCoords = .ok rectRing ∧
    rectRing.ids.length = 4 ∧
    simplifyRing 4 rectCoords 2 π 0 none false = .error "fuel exhausted" :=
  ⟨⟨by norm_num, ⟨Real.pi_pos.le, le_refl π⟩, ⟨le_refl 0, Real.pi_pos.le⟩⟩,
    ringInit_rect, rfl, rectSimplifyRing_diverges 4⟩

/-- Claim C1, amended: the loop of `simplify_ring` is not guaranteed to
terminate at all, let alone within the initial segment count of iterations:
on the 1×10 rectangle with the valid parameters `tau = 2`, `epsilon = π`,
`delta = 0`, every iteration dispatches to segment-regression — which leaves
the segment count unchanged and re-enqueues the popped segment — and the
loop runs forever (every finite iteration budget is exhausted). -/
theorem claim1_amended (fuel : Nat) :
    simplifyRing fuel rectCoords 2 π 0 none false = .error "fuel exhausted" :=
  rectSimplifyRing_diverges fuel

/-- Claim C2 is false: segment-regression applied to the popped segment 0 of
the rectangle (the dispatch condition `alpha ≤ epsilon` holds, `alpha = π`,
`epsilon = π`) leaves the ring with its 4 segments — the same ring object
state — whereas the claim demands that the count drop by exactly 2 (from 4
to 2).  Both neighbours 3 and 1 are still in the ring afterwards. -/
theorem claim2_counterexample :
    segmentRegression ⟨rectRing, [2, 1, 3]⟩ 0 = .ok ⟨rectRing, [2, 3, 0, 1]⟩ ∧
    rectRing.ids.length = 4 ∧ ¬ rectRing.ids.length = 4 - 2 ∧
    3 ∈ rectRing.ids ∧ 1 ∈ rectRing.ids :=
  ⟨rectRegress0, rfl, by rw [rectRingIds]; norm_num, by simp [rectRing], by simp [rectRing]⟩

/-- Claim C2, amended: segment-regression absorbs nothing.  Its only ring
edit is `ring.update` on the popped segment, so whenever it completes
(it raises an `AttributeError` when the popped segment has already left the
ring), the ring's segment list — hence the segment count — is exactly what
it was before; `prev` and `next` survive with adjusted shared endpoints. -/
theorem claim2_amended (st : EState) (i : Nat) (st' : EState)
    (h : segmentRegression st i = .ok st') :
    st'.ring.ids = st.ring.ids ∧ st'.ring.ids.length = st.ring.ids.length := by
  rw [segmentRegression] at h
  split_ifs at h with hmem
  have h2 := Except.ok.inj h
  subst h2
  refine ⟨?_, ?_⟩ <;> simp [enQ, rmQ, Ring.update_ids]

/-- Witness for `claim2_amended` at the rectangle run. -/
theorem claim2_amended_witness :
    (⟨rectRing, [2, 3, 0, 1]⟩ : EState).ring.ids = (⟨rectRing, [2, 1, 3]⟩ : EState).ring.ids ∧
    (⟨rectRing, [2, 3, 0, 1]⟩ : EState).ring.ids.length =
      (⟨rectRing, [2, 1, 3]⟩ : EState).ring.ids.length :=
  claim2_amended ⟨rectRing, [2, 1, 3]⟩ 0 ⟨rectRing, [2, 3, 0, 1]⟩ rectRegress0

/-!
## Claim C5: the semantics of `Ring.merge`
-/

/-- Claim C5 is false about which object survives: `Ring.merge(seg)` on the
live segment 0 of the rectangle (`next_seg` is segment 1) deletes segment 0
itself — not the next segment — and extends the surviving next segment
backwards: segment 1's start point becomes segment 0's old start `(0, 0)`
while its end point stays `(1, 10)`; the stored end point of segment 0 is
left at `(1, 0)` rather than becoming `seg.next_seg`'s old end point. -/
theorem claim5_counterexample :
    0 ∉ (Ring.merge rectRing 0).ids ∧ 1 ∈ (Ring.merge rectRing 0).ids ∧
    (Ring.merge rectRing 0).ids = [1, 2, 3] ∧
    ((Ring.merge rectRing 0).store 1).sp = (0, 0) ∧
    ((Ring.merge rectRing 0).store 1).ep = (1, 10) ∧
    ((Ring.merge rectRing 0).store 0).ep = (1, 0) := by
  refine ⟨?_, ?_, ?_, ?_, ?_, ?_⟩ <;>
    simp [Ring.merge, rectRing, rectStore, setSeg, Function.update_apply]

/-- Claim C5, amended: for a live segment `seg` with distinct neighbours,
`Ring.merge(seg)` drops the point between `seg` and `seg.next_seg` by
deleting `seg` itself: `seg.next_seg` survives with its start point moved to
`seg.prev_seg`'s end point (which is `seg`'s old start when the closure
invariant holds) and its end point unchanged, the prev/next links are
repaired around `seg`, and `seg`'s own object is left untouched. -/
theorem claim5_amended (r : RingSt) (i p n : Nat)
    (hmem : i ∈ r.ids) (hp : (r.store i).prv = p) (hn : (r.store i).nxt = n)
    (hip : p ≠ i) (hin : n ≠ i) (hpn : p ≠ n) :
    (Ring.merge r i).ids = r.ids.erase i ∧
    ((Ring.merge r i).store n).sp = (r.store p).ep ∧
    ((Ring.merge r i).store n).ep = (r.store n).ep ∧
    ((Ring.merge r i).store p).nxt = n ∧
    ((Ring.merge r i).store n).prv = p ∧
    (Ring.merge r i).store i = r.store i := by
  rw [Ring.merge, if_pos hmem, hp, hn]
  refine ⟨rfl, ?_, ?_, ?_, ?_, ?_⟩ <;>
    simp [setSeg, Function.update_apply, hip, hin, hpn,
      Ne.symm hip, Ne.symm hin, Ne.symm hpn]

/-- Witness for `claim5_amended` at segment 0 of the rectangle. -/
theorem claim5_amended_witness :
    (Ring.merge rectRing 0).ids = rectRing.ids.erase 0 ∧
    ((Ring.merge rectRing 0).store 1).sp = (rectRing.store 3).ep ∧
    ((Ring.merge rectRing 0).store 1).ep = (rectRing.store 1).ep ∧
    ((Ring.merge rectRing 0).store 3).nxt = 1 ∧
    ((Ring.merge rectRing 0).store 1).prv = 3 ∧
    (Ring.merge rectRing 0).store 0 = rectRing.store 0 :=
  claim5_amended rectRing 0 3 1 (by simp [rectRing]) rfl rfl
    (by norm_num) (by norm_num) (by norm_num)

/-!
## Claim C3: the single-cycle closure invariant

The invariant is phrased on the segment list: the identifiers are distinct,
consecutive listed segments (cyclically) are linked by `next`/`prev` and share
their endpoint.  The Python code keeps the `Ring._segments` list in ring
order, so this list-level invariant is exactly the single-cycle property; the
trace formulation of the claim (`next`-iteration visits every segment exactly
once and returns to the start) is derived from it below.
-/

/-- Two segment objects are ring-adjacent in a store: linked both ways and
sharing the intermediate point. -/
def adjS (st : Nat → SegData) (a b : Nat) : Prop :=
  (st a).nxt = b ∧ (st b).prv = a ∧ (st a).ep = (st b).sp

/-- The ring invariant: distinct identifiers, cyclically adjacent in list
order. -/
def ringInv (r : RingSt) : Prop :=
  r.ids.Nodup ∧ List.Chain' (adjS r.store) r.ids ∧
  ∀ x ∈ r.ids.getLast?, ∀ y ∈ r.ids.head?, adjS r.store x y

/-- Transfer a chain of adjacencies along a pairwise implication restricted
to members. -/
lemma chain'_imp_mem {R S : Nat → Nat → Prop} :
    ∀ (l : List Nat), (∀ a ∈ l, ∀ b ∈ l, R a b → S a b) →
      List.Chain' R l → List.Chain' S l
  | [], _, _ => List.chain'_nil
  | [_], _, _ => List.chain'_singleton _
  | a :: b :: l, h, hc => by
    rw [List.chain'_cons] at hc ⊢
    exact ⟨h a (by simp) b (by simp) hc.1,
      chain'_imp_mem (b :: l) (fun x hx y hy => h x (by simp [hx]) y (by simp [hy])) hc.2⟩

/-- The common shape of the `merge` and `remove` surgeries: the segment `i`
is dropped from the list, `p.next` is pointed at `n`, `n.prev` at `p`, and
the shared endpoint is re-established; every other listed segment keeps the
fields the adjacency reads.  Such a surgery preserves the ring invariant. -/
lemma surgery_inv (r : RingSt) (i p n : Nat) (store' : Nat → SegData)
    (hmem : i ∈ r.ids) (hinv : ringInv r)
    (hp : (r.store i).prv = p) (hn : (r.store i).nxt = n)
    (h2 : ∀ x, x ≠ p → (store' x).nxt = (r.store x).nxt)
    (h3 : ∀ x, x ≠ n → (store' x).prv = (r.store x).prv)
    (h4 : ∀ x, x ≠ p → (store' x).ep = (r.store x).ep)
    (h5 : ∀ x, x ≠ n → (store' x).sp = (r.store x).sp)
    (h6 : (store' p).nxt = n) (h7 : (store' n).prv = p)
    (h8 : (store' p).ep = (store' n).sp) :
    ringInv ⟨store', r.ids.erase i⟩ := by
  obtain ⟨hnodup, hchain, hwrap⟩ := hinv
  obtain ⟨l1, l2, hids⟩ := List.append_of_mem hmem
  have hnodup0 : (l1 ++ i :: l2).Nodup := hids ▸ hnodup
  have hil1 : i ∉ l1 := fun hc =>
    (List.disjoint_of_nodup_append hnodup0) hc (by simp)
  have hil2 : i ∉ l2 := by
    have h := List.Nodup.of_append_right hnodup0
    rw [List.nodup_cons] at h
    exact h.1
  have herase : r.ids.erase i = l1 ++ l2 := by
    rw [hids, List.erase_append_right _ hil1, List.erase_cons_head]
  have hchain0 : List.Chain' (adjS r.store) (l1 ++ i :: l2) := hids ▸ hchain
  rw [List.chain'_append] at hchain0
  obtain ⟨C1, C2', J1⟩ := hchain0
  rw [List.chain'_cons'] at C2'
  obtain ⟨J2, C2⟩ := C2'
  have hwrap0 : ∀ x ∈ (l1 ++ i :: l2).getLast?, ∀ y ∈ (l1 ++ i :: l2).head?,
      adjS r.store x y := hids ▸ hwrap
  -- the cyclic successor of i is n
  have hsucc : adjS r.store i n := by
    rcases l2 with _ | ⟨c, t2⟩
    · rcases l1 with _ | ⟨d, t1⟩
      · have h := hwrap0 i (by simp) i (by simp)
        have hni : n = i := hn.symm.trans h.1
        rw [hni]; exact h
      · have h := hwrap0 i
          (by rw [List.getLast?_append_of_ne_nil _ (by simp)]; simp) d
          (by rw [List.head?_append_of_ne_nil _ (by simp)]; simp)
        have hnd : n = d := hn.symm.trans h.1
        rw [hnd]; exact h
    · have h := J2 c rfl
      have hnc : n = c := hn.symm.trans h.1
      rw [hnc]; exact h
  -- the cyclic predecessor of i is p
  have hpred : adjS r.store p i := by
    rcases l1 with _ | ⟨d, t1⟩
    · rcases l2 with _ | ⟨c, t2⟩
      · have h := hwrap0 i (by simp) i (by simp)
        have hpi : p = i := hp.symm.trans h.2.1
        rw [hpi]; exact h
      · obtain ⟨lst, hlst⟩ :=
          Option.isSome_iff_exists.1 (List.getLast?_isSome.2 (by simp) :
            ((c :: t2).getLast?).isSome)
        have h := hwrap0 lst
          (by rw [List.nil_append, List.getLast?_cons_cons]; exact hlst ▸ rfl) i (by simp)
        have hpl : p = lst := hp.symm.trans h.2.1
        rw [hpl]; exact h
    · obtain ⟨lst, hlst⟩ :=
        Option.isSome_iff_exists.1 (List.getLast?_isSome.2 (by simp) :
          ((d :: t1).getLast?).isSome)
      have h := J1 lst hlst i rfl
      have hpl : p = lst := hp.symm.trans h.2.1
      rw [hpl]; exact h
  have hpnxt : (r.store p).nxt = i := hpred.1
  have hnprv : (r.store n).prv = i := hsucc.2.1
  -- any old adjacency between surviving segments transfers to the new store
  have htransmem : ∀ a ∈ l1 ++ l2, ∀ b ∈ l1 ++ l2,
      adjS r.store a b → adjS store' a b := by
    intro a ha b hb hab
    by_cases hap : a = p
    · exfalso
      have hbi : b = i := by rw [← hab.1, hap, hpnxt]
      rw [hbi, List.mem_append] at hb
      exact hb.elim (fun hc => hil1 hc) (fun hc => hil2 hc)
    · by_cases hbn : b = n
      · exfalso
        have hai : a = i := by rw [← hab.2.1, hbn, hnprv]
        rw [hai, List.mem_append] at ha
        exact ha.elim (fun hc => hil1 hc) (fun hc => hil2 hc)
      · exact ⟨(h2 a hap).trans hab.1, (h3 b hbn).trans hab.2.1,
          (h4 a hap).trans (hab.2.2.trans (h5 b hbn).symm)⟩
  have hadjpn : adjS store' p n := ⟨h6, h7, h8⟩
  refine ⟨?_, ?_, ?_⟩
  · show (r.ids.erase i).Nodup
    rw [herase]
    exact List.Nodup.sublist
      (List.Sublist.append_left (List.sublist_cons_self i l2) l1) hnodup0
  · show List.Chain' (adjS store') (r.ids.erase i)
    rw [herase]
    refine List.Chain'.append ?_ ?_ ?_
    · exact chain'_imp_mem l1
        (fun a ha b hb => htransmem a (List.mem_append_left _ ha)
          b (List.mem_append_left _ hb)) C1
    · exact chain'_imp_mem l2
        (fun a ha b hb => htransmem a (List.mem_append_right _ ha)
          b (List.mem_append_right _ hb)) C2
    · intro x hx y hy
      have hadjxi : adjS r.store x i := J1 x hx i rfl
      have hxp : x = p := hadjxi.2.1.symm.trans hp
      have hadjiy : adjS r.store i y := J2 y hy
      have hyn : y = n := hadjiy.1.symm.trans hn
      rw [hxp, hyn]; exact hadjpn
  · show ∀ x ∈ (r.ids.erase i).getLast?, ∀ y ∈ (r.ids.erase i).head?, adjS store' x y
    rw [herase]
    rcases l2 with _ | ⟨c, t2⟩
    · rcases l1 with _ | ⟨d, t1⟩
      · intro x hx; simp at hx
      · -- new list is l1 = d :: t1; wrap pair is (last l1, d) = (p, n)
        intro x hx y hy
        rw [List.append_nil] at hx hy
        have hadjxi : adjS r.store x i := J1 x hx i rfl
        have hxp : x = p := hadjxi.2.1.symm.trans hp
        have hyd : y = d := by have h0 := hy; simp at h0; exact h0.symm
        have h := hwrap0 i
          (by rw [List.getLast?_append_of_ne_nil _ (by simp)]; simp) d
          (by rw [List.head?_append_of_ne_nil _ (by simp)]; simp)
        have hdn : d = n := by rw [← hn, h.1]
        rw [hxp, hyd, hdn]; exact hadjpn
    · rcases l1 with _ | ⟨d, t1⟩
      · -- new list is l2 = c :: t2; wrap pair is (last l2, c) = (p, n)
        intro x hx y hy
        rw [List.nil_append] at hx hy
        obtain ⟨lst, hlst⟩ :=
          Option.isSome_iff_exists.1 (List.getLast?_isSome.2 (by simp) :
            ((c :: t2).getLast?).isSome)
        have hxl : x = lst := by rw [hlst] at hx; have h0 := hx; simp at h0; exact h0.symm
        have h := hwrap0 lst
          (by rw [List.nil_append, List.getLast?_cons_cons]; exact hlst ▸ rfl) i (by simp)
        have hxp : x = p := by rw [hxl, h.2.1.symm.trans hp]
        have hyc : y = c := by have h0 := hy; simp at h0; exact h0.symm
        have h2c := J2 c rfl
        have hcn : c = n := by rw [← hn, h2c.1]
        rw [hxp, hyc, hcn]; exact hadjpn
      · -- both sides nonempty: the wrap pair of the new list is the old wrap
        -- pair (last l2, head l1), transferred
        intro x hx y hy
        have hx2 : x ∈ ((c :: t2) : List Nat).getLast? := by
          rwa [List.getLast?_append_of_ne_nil _ (by simp)] at hx
        have hy1 : y ∈ ((d :: t1) : List Nat).head? := by
          rwa [List.head?_append_of_ne_nil _ (by simp)] at hy
        have h := hwrap0 x
          (by rw [List.getLast?_append_cons, List.getLast?_cons_cons]; exact hx2) y
          (by rw [List.head?_append_of_ne_nil _ (by simp)]; exact hy1)
        exact htransmem x
          (List.mem_append_right _ (List.mem_of_mem_getLast? hx2)) y
          (List.mem_append_left _ (List.mem_of_mem_head? hy1)) h

/-- In an invariant ring, every member is adjacent to the segments its
`prev`/`next` fields name: they are its cyclic neighbours in the list. -/
lemma cyclic_pred_succ (r : RingSt) (i : Nat) (hmem : i ∈ r.ids) (hinv : ringInv r) :
    adjS r.store ((r.store i).prv) i ∧ adjS r.store i ((r.store i).nxt) := by
  obtain ⟨hnodup, hchain, hwrap⟩ := hinv
  obtain ⟨l1, l2, hids⟩ := List.append_of_mem hmem
  have hchain0 : List.Chain' (adjS r.store) (l1 ++ i :: l2) := hids ▸ hchain
  rw [List.chain'_append] at hchain0
  obtain ⟨C1, C2', J1⟩ := hchain0
  rw [List.chain'_cons'] at C2'
  obtain ⟨J2, C2⟩ := C2'
  have hwrap0 : ∀ x ∈ (l1 ++ i :: l2).getLast?, ∀ y ∈ (l1 ++ i :: l2).head?,
      adjS r.store x y := hids ▸ hwrap
  constructor
  · rcases l1 with _ | ⟨d, t1⟩
    · rcases l2 with _ | ⟨c, t2⟩
      · have h := hwrap0 i (by simp) i (by simp)
        rw [show (r.store i).prv = i from h.2.1]; exact h
      · obtain ⟨lst, hlst⟩ :=
          Option.isSome_iff_exists.1 (List.getLast?_isSome.2 (by simp) :
            ((c :: t2).getLast?).isSome)
        have h := hwrap0 lst
          (by rw [List.nil_append, List.getLast?_cons_cons]; exact hlst ▸ rfl) i (by simp)
        rw [show (r.store i).prv = lst from h.2.1]; exact h
    · obtain ⟨lst, hlst⟩ :=
        Option.isSome_iff_exists.1 (List.getLast?_isSome.2 (by simp) :
          ((d :: t1).getLast?).isSome)
      have h := J1 lst hlst i rfl
      rw [show (r.store i).prv = lst from h.2.1]; exact h
  · rcases l2 with _ | ⟨c, t2⟩
    · rcases l1 with _ | ⟨d, t1⟩
      · have h := hwrap0 i (by simp) i (by simp)
        rw [show (r.store i).nxt = i from h.1]; exact h
      · have h := hwrap0 i
          (by rw [List.getLast?_append_of_ne_nil _ (by simp)]; simp) d
          (by rw [List.head?_append_of_ne_nil _ (by simp)]; simp)
        rw [show (r.store i).nxt = d from h.1]; exact h
    · have h := J2 c rfl
      rw [show (r.store i).nxt = c from h.1]; exact h

/-- `Ring.merge` preserves the ring invariant (also when it is a no-op). -/
lemma merge_ringInv (r : RingSt) (i : Nat) (hinv : ringInv r) :
    ringInv (Ring.merge r i) := by
  by_cases hmem : i ∈ r.ids
  · rw [Ring.merge, if_pos hmem]
    refine surgery_inv r i ((r.store i).prv) ((r.store i).nxt) _ hmem hinv rfl rfl
      ?_ ?_ ?_ ?_ ?_ ?_ ?_
    · intro x hx
      by_cases hxn : x = (r.store i).nxt
      · subst hxn; simp [setSeg, Function.update_apply, hx, Ne.symm hx]
      · simp [setSeg, Function.update_apply, hx, hxn]
    · intro x hx
      by_cases hxp : x = (r.store i).prv
      · subst hxp; simp [setSeg, Function.update_apply, hx, Ne.symm hx]
      · simp [setSeg, Function.update_apply, hx, hxp]
    · intro x hx
      by_cases hxn : x = (r.store i).nxt
      · subst hxn; simp [setSeg, Function.update_apply, hx, Ne.symm hx]
      · simp [setSeg, Function.update_apply, hx, hxn]
    · intro x hx
      by_cases hxp : x = (r.store i).prv
      · subst hxp; simp [setSeg, Function.update_apply, hx, Ne.symm hx]
      · simp [setSeg, Function.update_apply, hx, hxp]
    · by_cases hpn : (r.store i).prv = (r.store i).nxt
      · simp [setSeg, Function.update_apply, hpn]
      · simp [setSeg, Function.update_apply, hpn, Ne.symm hpn]
    · by_cases hpn : (r.store i).prv = (r.store i).nxt
      · simp [setSeg, Function.update_apply, hpn]
      · simp [setSeg, Function.update_apply, hpn, Ne.symm hpn]
    · by_cases hpn : (r.store i).prv = (r.store i).nxt
      · simp [setSeg, Function.update_apply, hpn]
      · simp [setSeg, Function.update_apply, hpn, Ne.symm hpn]
  · rw [Ring.merge, if_neg hmem]; exact hinv

/-- `Ring.remove` preserves the ring invariant (also when it is a no-op). -/
lemma remove_ringInv (r : RingSt) (i : Nat) (q : Point) (hinv : ringInv r) :
    ringInv (Ring.remove r i q) := by
  by_cases hmem : i ∈ r.ids
  · rw [Ring.remove, if_pos hmem]
    refine surgery_inv r i ((r.store i).prv) ((r.store i).nxt) _ hmem hinv rfl rfl
      ?_ ?_ ?_ ?_ ?_ ?_ ?_
    · intro x hx
      by_cases hxn : x = (r.store i).nxt
      · subst hxn; simp [setSeg, Function.update_apply, hx, Ne.symm hx]
      · simp [setSeg, Function.update_apply, hx, hxn]
    · intro x hx
      by_cases hxp : x = (r.store i).prv
      · subst hxp; simp [setSeg, Function.update_apply, hx, Ne.symm hx]
      · simp [setSeg, Function.update_apply, hx, hxp]
    · intro x hx
      by_cases hxn : x = (r.store i).nxt
      · subst hxn; simp [setSeg, Function.update_apply, hx, Ne.symm hx]
      · simp [setSeg, Function.update_apply, hx, hxn]
    · intro x hx
      by_cases hxp : x = (r.store i).prv
      · subst hxp; simp [setSeg, Function.update_apply, hx, Ne.symm hx]
      · simp [setSeg, Function.update_apply, hx, hxp]
    · by_cases hpn : (r.store i).prv = (r.store i).nxt
      · simp [setSeg, Function.update_apply, hpn]
      · simp [setSeg, Function.update_apply, hpn, Ne.symm hpn]
    · by_cases hpn : (r.store i).prv = (r.store i).nxt
      · simp [setSeg, Function.update_apply, hpn]
      · simp [setSeg, Function.update_apply, hpn, Ne.symm hpn]
    · by_cases hpn : (r.store i).prv = (r.store i).nxt
      · simp [setSeg, Function.update_apply, hpn]
      · simp [setSeg, Function.update_apply, hpn, Ne.symm hpn]
  · rw [Ring.remove, if_neg hmem]; exact hinv

/-- Field values after a single `sp`-overwrite. -/
lemma setSeg_sp_nxt (r : RingSt) (i : Nat) (q : Point) (x : Nat) :
    ((setSeg r i (fun s => { s with sp := q })).store x).nxt = (r.store x).nxt := by
  simp only [setSeg, Function.update_apply]
  split_ifs with h
  · rw [h]
  · rfl

/-- Field values after a single `ep`-overwrite. -/
lemma setSeg_ep_nxt (r : RingSt) (i : Nat) (q : Point) (x : Nat) :
    ((setSeg r i (fun s => { s with ep := q })).store x).nxt = (r.store x).nxt := by
  simp only [setSeg, Function.update_apply]
  split_ifs with h
  · rw [h]
  · rfl

/-- Field values after a single `sp`-overwrite. -/
lemma setSeg_sp_prv (r : RingSt) (i : Nat) (q : Point) (x : Nat) :
    ((setSeg r i (fun s => { s with sp := q })).store x).prv = (r.store x).prv := by
  simp only [setSeg, Function.update_apply]
  split_ifs with h
  · rw [h]
  · rfl

/-- Field values after a single `ep`-overwrite. -/
lemma setSeg_ep_prv (r : RingSt) (i : Nat) (q : Point) (x : Nat) :
    ((setSeg r i (fun s => { s with ep := q })).store x).prv = (r.store x).prv := by
  simp only [setSeg, Function.update_apply]
  split_ifs with h
  · rw [h]
  · rfl

/-- Field values after a single `sp`-overwrite. -/
lemma setSeg_sp_ep (r : RingSt) (i : Nat) (q : Point) (x : Nat) :
    ((setSeg r i (fun s => { s with sp := q })).store x).ep = (r.store x).ep := by
  simp only [setSeg, Function.update_apply]
  split_ifs with h
  · rw [h]
  · rfl

/-- Field values after a single `ep`-overwrite. -/
lemma setSeg_ep_sp (r : RingSt) (i : Nat) (q : Point) (x : Nat) :
    ((setSeg r i (fun s => { s with ep := q })).store x).sp = (r.store x).sp := by
  simp only [setSeg, Function.update_apply]
  split_ifs with h
  · rw [h]
  · rfl

/-- Field values after a single `sp`-overwrite. -/
lemma setSeg_sp_sp (r : RingSt) (i : Nat) (q : Point) (x : Nat) :
    ((setSeg r i (fun s => { s with sp := q })).store x).sp =
      if x = i then q else (r.store x).sp := by
  simp only [setSeg, Function.update_apply]
  split_ifs <;> rfl

/-- Field values after a single `ep`-overwrite. -/
lemma setSeg_ep_ep (r : RingSt) (i : Nat) (q : Point) (x : Nat) :
    ((setSeg r i (fun s => { s with ep := q })).store x).ep =
      if x = i then q else (r.store x).ep := by
  simp only [setSeg, Function.update_apply]
  split_ifs <;> rfl

/-- The structural edit `update` never touches the link fields. -/
lemma update_store_nxt (r : RingSt) (i : Nat) (sp ep : Point) (x : Nat) :
    ((Ring.update r i sp ep).store x).nxt = (r.store x).nxt := by
  rw [Ring.update]
  split_ifs with hmem
  · simp only [setSeg_sp_nxt, setSeg_ep_nxt]
  · rfl

/-- The structural edit `update` never touches the link fields. -/
lemma update_store_prv (r : RingSt) (i : Nat) (sp ep : Point) (x : Nat) :
    ((Ring.update r i sp ep).store x).prv = (r.store x).prv := by
  rw [Ring.update]
  split_ifs with hmem
  · simp only [setSeg_sp_prv, setSeg_ep_prv]
  · rfl

/-- The end point of each segment after `update(i, sp, ep)`: the write to
`i.prev.ep` is last, then the write of `ep` to `i` itself. -/
lemma update_store_ep (r : RingSt) (i : Nat) (sp ep : Point)
    (hmem : i ∈ r.ids) (x : Nat) :
    ((Ring.update r i sp ep).store x).ep =
      if x = (r.store i).prv then sp else if x = i then ep else (r.store x).ep := by
  rw [Ring.update, if_pos hmem]
  simp [setSeg_sp_nxt, setSeg_ep_nxt, setSeg_sp_prv, setSeg_ep_prv,
    setSeg_sp_ep, setSeg_ep_sp, setSeg_sp_sp, setSeg_ep_ep]

/-- The start point of each segment after `update(i, sp, ep)`: the write to
`i.next.sp` is last; the value it copies depends on whether `i` is its own
predecessor (single-segment ring). -/
lemma update_store_sp (r : RingSt) (i : Nat) (sp ep : Point)
    (hmem : i ∈ r.ids) (x : Nat) :
    ((Ring.update r i sp ep).store x).sp =
      if x = (r.store i).nxt then (if i = (r.store i).prv then sp else ep)
      else if x = i then sp else (r.store x).sp := by
  rw [Ring.update, if_pos hmem]
  simp [setSeg_sp_nxt, setSeg_ep_nxt, setSeg_sp_prv, setSeg_ep_prv,
    setSeg_sp_ep, setSeg_ep_sp, setSeg_sp_sp, setSeg_ep_ep]

/-- `Ring.update` preserves the ring invariant (also when it is a no-op). -/
lemma update_ringInv (r : RingSt) (i : Nat) (sp ep : Point) (hinv : ringInv r) :
    ringInv (Ring.update r i sp ep) := by
  by_cases hmem : i ∈ r.ids
  case neg => rw [Ring.update, if_neg hmem]; exact hinv
  case pos =>
  have hps := cyclic_pred_succ r i hmem hinv
  have hnip : (r.store i).nxt = i → (r.store i).prv = i := by
    intro h
    have h2 := hps.2
    rw [h] at h2
    exact h2.2.1
  have htrans : ∀ a ∈ r.ids, ∀ b ∈ r.ids,
      adjS r.store a b → adjS (Ring.update r i sp ep).store a b := by
    intro a _ b _ hab
    refine ⟨?_, ?_, ?_⟩
    · rw [update_store_nxt]; exact hab.1
    · rw [update_store_prv]; exact hab.2.1
    · rw [update_store_ep r i sp ep hmem a, update_store_sp r i sp ep hmem b]
      by_cases hap : a = (r.store i).prv
      · have hbi : b = i := by rw [← hab.1, hap, hps.1.1]
        rw [if_pos hap, hbi]
        by_cases hni : i = (r.store i).nxt
        · have hpi : (r.store i).prv = i := hnip hni.symm
          rw [if_pos hni, if_pos hpi.symm]
        · rw [if_neg hni, if_pos rfl]
      · by_cases hai : a = i
        · have hbn : b = (r.store i).nxt := by rw [← hab.1, hai]
          have hip : ¬ i = (r.store i).prv := fun h => hap (hai.trans h)
          rw [if_neg hap, if_pos hai, hbn, if_pos rfl, if_neg hip]
        · have hbn : ¬ b = (r.store i).nxt := by
            intro h
            apply hai
            rw [← hab.2.1, h, hps.2.2.1]
          have hbi : ¬ b = i := by
            intro h
            apply hap
            rw [← hab.2.1, h]
          rw [if_neg hap, if_neg hai, if_neg hbn, if_neg hbi]
          exact hab.2.2
  obtain ⟨hnodup, hchain, hwrap⟩ := hinv
  refine ⟨?_, ?_, ?_⟩
  · show (Ring.update r i sp ep).ids.Nodup
    rw [Ring.update_ids]; exact hnodup
  · show List.Chain' _ (Ring.update r i sp ep).ids
    rw [Ring.update_ids]
    exact chain'_imp_mem r.ids htrans hchain
  · show ∀ x ∈ (Ring.update r i sp ep).ids.getLast?,
      ∀ y ∈ (Ring.update r i sp ep).ids.head?, adjS (Ring.update r i sp ep).store x y
    rw [Ring.update_ids]
    intro x hx y hy
    exact htrans x (List.mem_of_mem_getLast? hx) y (List.mem_of_mem_head? hy)
      (hwrap x hx y hy)

/-- `Ring.__init__` establishes the ring invariant whenever the coordinate
sequence is closed (its last point equals its first, as a linear ring's
coordinate sequence is). -/
lemma ringInit_ringInv (coords : List Point) (r : RingSt)
    (hok : ringInit coords = .ok r)
    (hclosed : coords.getD (coords.length - 1) (0, 0) = coords.getD 0 (0, 0)) :
    ringInv r := by
  rw [ringInit] at hok
  split_ifs at hok with hn
  rw [Except.ok.injEq] at hok
  subst hok
  push_neg at hn
  refine ⟨?_, ?_, ?_⟩
  · exact List.nodup_range _
  · show List.Chain' _ (List.range (coords.length - 1))
    obtain ⟨m, hm⟩ : ∃ m, coords.length - 1 = m + 1 := ⟨coords.length - 1 - 1, by omega⟩
    rw [hm, List.chain'_range_succ]
    intro j hj
    have hj1 : j + 1 < m + 1 := by omega
    have hj0 : j < m + 1 := by omega
    refine ⟨?_, ?_, ?_⟩ <;> simp only [Nat.succ_eq_add_one]
    · rw [if_pos hj0]
      exact Nat.mod_eq_of_lt hj1
    · rw [if_pos hj1]
      have h1 : j + 1 + (m + 1) - 1 = j + (m + 1) := by omega
      rw [h1, Nat.add_mod_right]
      exact Nat.mod_eq_of_lt hj0
    · rw [if_pos hj0, if_pos hj1]
  · show ∀ x ∈ (List.range (coords.length - 1)).getLast?,
      ∀ y ∈ (List.range (coords.length - 1)).head?, _
    have hlast : (List.range (coords.length - 1)).getLast? =
        some (coords.length - 1 - 1) := by
      obtain ⟨m, hm⟩ : ∃ m, coords.length - 1 = m + 1 := ⟨coords.length - 1 - 1, by omega⟩
      rw [hm, List.range_succ, List.getLast?_concat]
      simp [hm]
    have hhead : (List.range (coords.length - 1)).head? = some 0 := by
      obtain ⟨m, hm⟩ : ∃ m, coords.length - 1 = m + 1 := ⟨coords.length - 1 - 1, by omega⟩
      rw [hm, List.range_succ_eq_map]
      rfl
    intro x hx y hy
    rw [hlast, Option.mem_some_iff] at hx
    rw [hhead, Option.mem_some_iff] at hy
    subst hx
    subst hy
    have hm1 : coords.length - 1 - 1 < coords.length - 1 := by omega
    have h0 : 0 < coords.length - 1 := by omega
    refine ⟨?_, ?_, ?_⟩
    · dsimp only
      rw [if_pos hm1]
      have h1 : coords.length - 1 - 1 + 1 = coords.length - 1 := by omega
      rw [h1, Nat.mod_self]
    · dsimp only
      rw [if_pos h0]
      have h1 : 0 + (coords.length - 1) - 1 = coords.length - 1 - 1 := by omega
      rw [h1]
      exact Nat.mod_eq_of_lt hm1
    · dsimp only
      rw [if_pos hm1, if_pos h0]
      have h1 : coords.length - 1 - 1 + 1 = coords.length - 1 := by omega
      rw [h1]
      exact hclosed

/-- Queue edits leave the ring untouched. -/
lemma rmQ_ring (st : EState) (i : Nat) : (rmQ st i).ring = st.ring := rfl

/-- Queue edits leave the ring untouched. -/
lemma enQ_ring (st : EState) (i : Nat) : (enQ st i).ring = st.ring := rfl

/-- `remove_middle_point` edits the ring through `merge` alone. -/
lemma removeMiddlePoint_ring (st : EState) (i : Nat) :
    (removeMiddlePoint st i).ring = Ring.merge st.ring i := rfl

/-- `join_segment` edits the ring through `remove` alone. -/
lemma joinSegment_ring (st : EState) (i : Nat) (q : Point) :
    (joinSegment st i q).ring = Ring.remove st.ring i q := rfl

/-- On success, `segment_regression` edits the ring through `update` alone. -/
lemma segmentRegression_ringInv (st : EState) (i : Nat) (st' : EState)
    (hok : segmentRegression st i = .ok st') (hinv : ringInv st.ring) :
    ringInv st'.ring := by
  rw [segmentRegression] at hok
  simp only [rmQ_ring, enQ_ring] at hok
  split_ifs at hok with hmem
  · rw [Except.ok.injEq] at hok
    rw [← hok]
    exact update_ringInv _ _ _ _ hinv

/-- `conditional_segment_regression` preserves the ring invariant on
success. -/
lemma condSegRegression_ringInv (mf : Bool) (tau : ℝ) (st : EState) (i : Nat)
    (st' : EState) (hok : condSegRegression mf tau st i = .ok st')
    (hinv : ringInv st.ring) : ringInv st'.ring := by
  rw [condSegRegression] at hok
  dsimp only at hok
  split_ifs at hok with h1 h2 h3 h4 h5 <;>
    first
      | (rw [Except.ok.injEq] at hok
         rw [← hok, removeMiddlePoint_ring]
         exact merge_ringInv _ _ hinv)
      | exact segmentRegression_ringInv _ _ _ hok hinv

/-- `translate_segment` preserves the ring invariant: each branch is a
sequence of `update`/`remove` edits. -/
lemma translateSegment_ringInv (st : EState) (i : Nat) (hinv : ringInv st.ring) :
    ringInv (translateSegment st i).ring := by
  rw [translateSegment]
  simp only [rmQ_ring, enQ_ring]
  split_ifs with h1 h2
  · exact remove_ringInv _ _ _ (update_ringInv _ _ _ _ (update_ringInv _ _ _ _ hinv))
  · exact remove_ringInv _ _ _ (update_ringInv _ _ _ _ (update_ringInv _ _ _ _ hinv))
  · exact remove_ringInv _ _ _ (remove_ringInv _ _ _ (update_ringInv _ _ _ _ hinv))

/-- The prune half of step 2d preserves the ring invariant. -/
lemma pruneStep_ringInv (st : EState) (i : Nat) (hinv : ringInv st.ring) :
    ringInv (pruneStep st i).ring := by
  rw [pruneStep]
  split_ifs with h1 <;>
    · rw [removeMiddlePoint_ring]
      exact merge_ringInv _ _ hinv

/-- The join-or-prune step preserves the ring invariant. -/
lemma joinOrPrune_ringInv (tau : ℝ) (gamma : Option ℝ) (st : EState) (i : Nat)
    (hinv : ringInv st.ring) : ringInv (joinOrPrune tau gamma st i).ring := by
  rw [joinOrPrune.eq_def]
  dsimp only
  rcases intersectionLines (st.ring.store ((st.ring.store i).prv)).sp
      (st.ring.store ((st.ring.store i).prv)).ep
      (st.ring.store ((st.ring.store i).nxt)).sp
      (st.ring.store ((st.ring.store i).nxt)).ep with _ | qp
  · exact pruneStep_ringInv _ _ hinv
  · dsimp only
    split_ifs with h1
    · rw [joinSegment_ring]
      exact remove_ringInv _ _ _ hinv
    · exact pruneStep_ringInv _ _ hinv

/-- One loop iteration preserves the ring invariant. -/
lemma loopStep_ringInv (tau epsilon delta : ℝ) (gamma : Option ℝ) (mf : Bool)
    (st st' : EState) (hok : loopStep tau epsilon delta gamma mf st = .ok st')
    (hinv : ringInv st.ring) : ringInv st'.ring := by
  rw [loopStep] at hok
  rcases hp : heapPop (lenKey st.ring) st.queue with _ | ⟨s, q1⟩ <;>
    rw [hp] at hok <;> dsimp only at hok
  · rw [Except.ok.injEq] at hok
    rw [← hok]
    exact hinv
  · split_ifs at hok with h1 h2 h3 h4
    · rw [Except.ok.injEq] at hok
      rw [← hok, removeMiddlePoint_ring]
      exact merge_ringInv _ _ hinv
    · exact condSegRegression_ringInv _ _ _ _ _ hok hinv
    · rw [Except.ok.injEq] at hok
      rw [← hok]
      exact translateSegment_ringInv _ _ hinv
    · rw [Except.ok.injEq] at hok
      rw [← hok]
      exact joinOrPrune_ringInv _ _ _ _ hinv
    · rw [Except.ok.injEq] at hok
      rw [← hok]
      exact hinv

/-- The fuelled loop preserves the ring invariant. -/
lemma runLoop_ringInv (tau epsilon delta : ℝ) (gamma : Option ℝ) (mf : Bool) :
    ∀ (fuel : Nat) (st st' : EState),
      runLoop tau epsilon delta gamma mf fuel st = .ok st' →
      ringInv st.ring → ringInv st'.ring
  | 0, st, st', hok, hinv => by
    rw [runLoop] at hok
    split_ifs at hok
    rw [Except.ok.injEq] at hok
    rw [← hok]
    exact hinv
  | fuel + 1, st, st', hok, hinv => by
    rw [runLoop] at hok
    split_ifs at hok with hdone
    · rw [Except.ok.injEq] at hok
      rw [← hok]
      exact hinv
    · rcases hstep : loopStep tau epsilon delta gamma mf st with e | st1 <;>
        rw [hstep] at hok
      · exact absurd hok (by simp [Except.bind])
      · rw [show Except.bind (Except.ok st1)
            (runLoop tau epsilon delta gamma mf fuel) =
            runLoop tau epsilon delta gamma mf fuel st1 from rfl] at hok
        exact runLoop_ringInv tau epsilon delta gamma mf fuel st1 st' hok
          (loopStep_ringInv _ _ _ _ _ _ _ hstep hinv)

/-- In an invariant ring, the `next` field of the `j`-th listed segment names
the `(j+1) mod n`-th listed segment. -/
lemma ringInv_nxt_get (r : RingSt) (hinv : ringInv r) (j : Nat)
    (hj : j < r.ids.length) :
    (r.store (r.ids.get ⟨j, hj⟩)).nxt =
      r.ids.get ⟨(j + 1) % r.ids.length, Nat.mod_lt _ (by omega)⟩ := by
  obtain ⟨hnodup, hchain, hwrap⟩ := hinv
  by_cases hj1 : j + 1 < r.ids.length
  · have h := List.chain'_iff_get.1 hchain j (by omega)
    have hmod : (j + 1) % r.ids.length = j + 1 := Nat.mod_eq_of_lt hj1
    rw [show (⟨(j + 1) % r.ids.length, Nat.mod_lt _ (by omega)⟩ :
        Fin r.ids.length) = ⟨j + 1, hj1⟩ from Fin.ext hmod]
    exact h.1
  · have hjlast : j = r.ids.length - 1 := by omega
    have hmod : (j + 1) % r.ids.length = 0 := by
      have h1 : j + 1 = r.ids.length := by omega
      rw [h1, Nat.mod_self]
    have hlen0 : 0 < r.ids.length := by omega
    have hlast : r.ids.getLast? = some (r.ids.get ⟨j, hj⟩) := by
      rw [List.getLast?_eq_getElem?, List.getElem?_eq_getElem (by omega)]
      simp only [List.get_eq_getElem, hjlast]
    have hhead : r.ids.head? = some (r.ids.get ⟨0, hlen0⟩) := by
      rw [List.head?_eq_getElem?, List.getElem?_eq_getElem hlen0]
      simp only [List.get_eq_getElem]
    have h := hwrap (r.ids.get ⟨j, hj⟩) (by rw [hlast]; exact rfl)
      (r.ids.get ⟨0, hlen0⟩) (by rw [hhead]; exact rfl)
    rw [show (⟨(j + 1) % r.ids.length, Nat.mod_lt _ (by omega)⟩ :
        Fin r.ids.length) = ⟨0, hlen0⟩ from Fin.ext hmod]
    exact h.1

/-- Iterating `next` from the `j`-th listed segment lands on the
`(j+k) mod n`-th listed segment. -/
lemma nxtIter_get (r : RingSt) (hinv : ringInv r) (j : Nat)
    (hj : j < r.ids.length) :
    ∀ k, nxtIter r.store (r.ids.get ⟨j, hj⟩) k =
      r.ids.get ⟨(j + k) % r.ids.length, Nat.mod_lt _ (by omega)⟩
  | 0 => by
    rw [nxtIter]
    rw [show (⟨(j + 0) % r.ids.length, Nat.mod_lt _ (by omega)⟩ :
        Fin r.ids.length) = ⟨j, hj⟩ from Fin.ext (Nat.mod_eq_of_lt (by omega))]
  | k + 1 => by
    rw [nxtIter, nxtIter_get r hinv j hj k,
      ringInv_nxt_get r hinv ((j + k) % r.ids.length) (Nat.mod_lt _ (by omega))]
    exact congrArg r.ids.get (Fin.ext (by
      show ((j + k) % r.ids.length + 1) % r.ids.length =
        (j + (k + 1)) % r.ids.length
      rw [Nat.mod_add_mod, Nat.add_assoc]))

/-- The trace formulation of the single-cycle property: in an invariant
ring, chasing `next` from any listed segment for `n` steps lists a
permutation of the segment list (every segment is visited exactly once) and
returns to the start. -/
lemma ringInv_cycle (r : RingSt) (hinv : ringInv r) (i : Nat) (hmem : i ∈ r.ids) :
    ((List.range r.ids.length).map (nxtIter r.store i)).Perm r.ids ∧
      nxtIter r.store i r.ids.length = i := by
  obtain ⟨⟨j, hj⟩, rfl⟩ := List.mem_iff_get.1 hmem
  constructor
  · have heq : (List.range r.ids.length).map (nxtIter r.store (r.ids.get ⟨j, hj⟩)) =
        r.ids.rotate j := by
      apply List.ext_get
      · simp [List.length_rotate]
      · intro k h1 h2
        rw [List.get_map, List.get_range, nxtIter_get r hinv j hj, List.get_rotate]
        exact congrArg r.ids.get (Fin.ext (by
          show (j + k) % r.ids.length = (k + j) % r.ids.length
          rw [Nat.add_comm]))
    rw [heq]
    exact List.rotate_perm r.ids j
  · rw [nxtIter_get r hinv j hj]
    exact congrArg r.ids.get (Fin.ext (by
      show (j + r.ids.length) % r.ids.length = j
      rw [Nat.add_mod_right]
      exact Nat.mod_eq_of_lt hj))

/-- The rectangle ring satisfies the ring invariant. -/
lemma rectRingInv : ringInv rectRing := by
  refine ⟨by decide, ?_, ?_⟩
  · show List.Chain' _ [0, 1, 2, 3]
    refine List.chain'_cons.2 ⟨?_, List.chain'_cons.2 ⟨?_, List.chain'_cons.2
      ⟨?_, List.chain'_singleton _⟩⟩⟩ <;>
      exact ⟨rfl, rfl, rfl⟩
  · intro x hx y hy
    have hx3 : x = 3 := by
      rw [show rectRing.ids.getLast? = some 3 from rfl, Option.mem_some_iff] at hx
      exact hx.symm
    have hy0 : y = 0 := by
      rw [show rectRing.ids.head? = some 0 from rfl, Option.mem_some_iff] at hy
      exact hy.symm
    subst hx3
    subst hy0
    exact ⟨rfl, rfl, rfl⟩

/-- C3: every structural edit (`merge`, `update`, `remove`) preserves the
single-cycle closure invariant, each is a silent no-op on a segment absent
from the ring, `Ring.__init__` establishes the invariant on a closed
coordinate sequence, the invariant holds at every state reachable by the
`simplify_ring` loop, and on an invariant ring the `next`-pointer trace from
any segment visits every segment exactly once, returns to its start, and
`segment.ep = segment.next_seg.sp` holds throughout. -/
theorem claim3 :
    (∀ r i, ringInv r → ringInv (Ring.merge r i)) ∧
    (∀ r i sp ep, ringInv r → ringInv (Ring.update r i sp ep)) ∧
    (∀ r i q, ringInv r → ringInv (Ring.remove r i q)) ∧
    (∀ r i sp ep q, i ∉ r.ids →
      Ring.merge r i = r ∧ Ring.update r i sp ep = r ∧ Ring.remove r i q = r) ∧
    (∀ coords r, ringInit coords = .ok r →
      coords.getD (coords.length - 1) (0, 0) = coords.getD 0 (0, 0) →
      ringInv r) ∧
    (∀ tau epsilon delta gamma mf st st', ringInv st.ring →
      loopStep tau epsilon delta gamma mf st = .ok st' → ringInv st'.ring) ∧
    (∀ tau epsilon delta gamma mf fuel st st', ringInv st.ring →
      runLoop tau epsilon delta gamma mf fuel st = .ok st' → ringInv st'.ring) ∧
    (∀ r, ringInv r → ∀ i ∈ r.ids,
      ((List.range r.ids.length).map (nxtIter r.store i)).Perm r.ids ∧
      nxtIter r.store i r.ids.length = i ∧
      (r.store i).ep = (r.store ((r.store i).nxt)).sp) := by
  refine ⟨merge_ringInv, update_ringInv, remove_ringInv, ?_, ringInit_ringInv,
    ?_, ?_, ?_⟩
  · intro r i sp ep q h
    refine ⟨?_, ?_, ?_⟩
    · rw [Ring.merge, if_neg h]
    · rw [Ring.update, if_neg h]
    · rw [Ring.remove, if_neg h]
  · intro tau epsilon delta gamma mf st st' hinv hok
    exact loopStep_ringInv tau epsilon delta gamma mf st st' hok hinv
  · intro tau epsilon delta gamma mf fuel st st' hinv hok
    exact runLoop_ringInv tau epsilon delta gamma mf fuel st st' hok hinv
  · intro r hinv i hi
    exact ⟨(ringInv_cycle r hinv i hi).1, (ringInv_cycle r hinv i hi).2,
      (cyclic_pred_succ r i hi hinv).2.2.2⟩

/-- Witness for C3 at the concrete rectangle ring. -/
theorem claim3_witness :
    ringInv (Ring.merge rectRing 0) ∧
    ringInv (Ring.update rectRing 1 ((1 : ℝ), (0 : ℝ)) ((1 : ℝ), (10 : ℝ))) ∧
    ringInv (Ring.remove rectRing 2 ((0 : ℝ), (0 : ℝ))) ∧
    Ring.merge rectRing 7 = rectRing ∧
    ((List.range rectRing.ids.length).map (nxtIter rectRing.store 0)).Perm
      rectRing.ids :=
  ⟨claim3.1 rectRing 0 rectRingInv,
   claim3.2.1 rectRing 1 _ _ rectRingInv,
   claim3.2.2.1 rectRing 2 _ rectRingInv,
   (claim3.2.2.2.1 rectRing 7 ((0 : ℝ), (0 : ℝ)) ((0 : ℝ), (0 : ℝ))
     ((0 : ℝ), (0 : ℝ)) (by decide)).1,
   (claim3.2.2.2.2.2.2.2 rectRing rectRingInv 0 (by decide)).1⟩

/-!
## Claims C4, C6, C7: the `simplify` wrapper, the result shape and constructors, input
validation
-/

/-- The per-hole results of the concrete polygon: the single hole is
rejected, and the raw `none` is kept. -/
lemma mapM_tri : ([triCoords] : List (List Point)).mapM
    (fun c => simplifyRing 5 c 1 (3 / 2) (1 / 10) none false) = .ok [none] := by
  rw [List.mapM_cons, triSimplify, List.mapM_nil]
  rfl

/-- `simplify` on the polygon whose exterior is the square and whose only
hole is the equilateral triangle: the exterior succeeds, the hole is
rejected, and the raw `None` handed to the `Polygon` constructor makes it
raise a `TypeError`. -/
lemma polySimplify : simplify 5 ⟨sqCoords, [triCoords]⟩ 1 (3 / 2) (1 / 10) none false =
    .error "TypeError: object of type 'NoneType' has no len()" := by
  rw [simplify]
  dsimp only
  rw [sqSimplify]
  show (([triCoords] : List (List Point)).mapM
      (fun c => simplifyRing 5 c 1 (3 / 2) (1 / 10) none false)).bind _ = _
  rw [mapM_tri]
  show (if none ∈ ([none] : List (Option (List Point))) then
      (.error "TypeError: object of type 'NoneType' has no len()" :
        Except String (Option PolyOut))
    else pure (some { exterior := sqCoords, interiors := [none] })) = _
  rw [if_pos (List.mem_singleton.2 rfl)]

/-- `simplify` on the square with no holes succeeds. -/
lemma polySimplifyOK : simplify 5 ⟨sqCoords, []⟩ 1 (3 / 2) (1 / 10) none false =
    .ok (some { exterior := sqCoords, interiors := [] }) := by
  rw [simplify]
  dsimp only
  rw [sqSimplify, List.mapM_nil]
  show (if none ∈ ([] : List (Option (List Point))) then
      (.error "TypeError: object of type 'NoneType' has no len()" :
        Except String (Option PolyOut))
    else pure (some { exterior := sqCoords, interiors := [] })) = _
  rw [if_neg (by simp)]
  rfl

/-- `mapM` over `Except` preserves the length on success. -/
lemma mapM_ok_length {α β : Type} (f : α → Except String β) :
    ∀ (l : List α) (ys : List β), l.mapM f = .ok ys → ys.length = l.length
  | [], ys, h => by
    rw [List.mapM_nil] at h
    have h2 : ([] : List β) = ys := Except.ok.inj h
    rw [← h2]
    rfl
  | a :: l, ys, h => by
    rw [List.mapM_cons] at h
    rcases hfa : f a with e | b <;> rw [hfa] at h
    · exact Except.noConfusion (show Except.error e = Except.ok ys from h)
    · have h1 : Functor.map (List.cons b) (l.mapM f) = Except.ok ys := h
      rcases hml : l.mapM f with e | bs <;> rw [hml] at h1
      · exact Except.noConfusion (show Except.error e = Except.ok ys from h1)
      · have h2 : b :: bs = ys :=
          Except.ok.inj (show Except.ok (b :: bs) = Except.ok ys from h1)
        rw [← h2]
        rw [List.length_cons, List.length_cons, mapM_ok_length f l bs hml]

/-- In an invariant ring the coordinate sequence is closed: its last entry
equals its first. -/
lemma coordinates_closed (r : RingSt) (hinv : ringInv r) :
    (Ring.coordinates r).getLast? = (Ring.coordinates r).head? := by
  rw [Ring.coordinates.eq_def]
  rcases hl : r.ids.getLast? with _ | lastId
  · rfl
  · dsimp only
    obtain ⟨h0, t, hids⟩ : ∃ h0 t, r.ids = h0 :: t := by
      rcases hids0 : r.ids with _ | ⟨h0, t⟩
      · rw [hids0] at hl
        exact absurd hl (by simp)
      · exact ⟨h0, t, rfl⟩
    have hlast2 : (r.ids.map (fun i => (r.store i).sp) ++
        [(r.store lastId).ep]).getLast? = some ((r.store lastId).ep) :=
      List.getLast?_concat _
    have hhead2 : (r.ids.map (fun i => (r.store i).sp) ++
        [(r.store lastId).ep]).head? = some ((r.store h0).sp) := by
      rw [hids]
      rfl
    rw [hlast2, hhead2]
    have hadj := hinv.2.2 lastId hl h0 (show r.ids.head? = some h0 by rw [hids]; rfl)
    exact congrArg some hadj.2.2

/-- The head of a nonempty list, through `getD`. -/
lemma head?_getD : ∀ (l : List Point), l ≠ [] → l.head? = some (l.getD 0 (0, 0))
  | [], h => absurd rfl h
  | _ :: _, _ => rfl

/-- The last entry of a nonempty list, through `getD`. -/
lemma getLast?_getD (l : List Point) (h : l ≠ []) :
    l.getLast? = some (l.getD (l.length - 1) (0, 0)) := by
  have hlen : 0 < l.length := List.length_pos.2 h
  rw [List.getLast?_eq_getElem?, List.getElem?_eq_getElem (by omega)]
  exact congrArg some (List.getD_eq_getElem l (0, 0) (by omega)).symm

/-- Whatever list the `LinearRing` constructor accepts is closed and has at
least 4 entries. -/
lemma linearRing_ok (cs out : List Point) (h : linearRing cs = .ok out) :
    4 ≤ out.length ∧ out.getLast? = out.head? := by
  rw [linearRing] at h
  dsimp only at h
  by_cases h1 : cs.length < 3
  · rw [if_pos h1] at h
    exact Except.noConfusion h
  · rw [if_neg h1] at h
    have hne : cs ≠ [] := by
      intro hc
      rw [hc] at h1
      exact h1 (by norm_num)
    by_cases h2 : cs.getD 0 (0, 0) = cs.getD (cs.length - 1) (0, 0)
    · rw [if_pos h2] at h
      by_cases h3 : cs.length < 4
      · rw [if_pos h3] at h
        exact Except.noConfusion h
      · rw [if_neg h3] at h
        have hout : cs = out := Except.ok.inj h
        rw [← hout]
        refine ⟨by omega, ?_⟩
        rw [getLast?_getD cs hne, head?_getD cs hne]
        exact congrArg some h2.symm
    · rw [if_neg h2] at h
      by_cases h4 : (cs ++ [cs.getD 0 (0, 0)]).length < 4
      · rw [if_pos h4] at h
        exact Except.noConfusion h
      · rw [if_neg h4] at h
        have hout : cs ++ [cs.getD 0 (0, 0)] = out := Except.ok.inj h
        have hlen3 : 3 ≤ cs.length := by omega
        rw [← hout]
        constructor
        · rw [List.length_append, List.length_singleton]
          omega
        · rw [List.getLast?_concat, List.head?_append_of_ne_nil _ hne,
            head?_getD cs hne]

/-- Claim C4 is false as stated: on a polygon whose exterior simplifies and
whose sole hole is rejected, the rejected hole is not dropped — the raw
`None` is appended unfiltered to the interiors handed to the `Polygon`
constructor, which raises a `TypeError`; `simplify` raises instead of
returning a polygon assembled from the exterior and the surviving holes. -/
theorem claim4_counterexample :
    simplifyRing 5 sqCoords 1 (3 / 2) (1 / 10) none false = .ok (some sqCoords) ∧
    simplifyRing 5 triCoords 1 (3 / 2) (1 / 10) none false = .ok none ∧
    simplify 5 ⟨sqCoords, [triCoords]⟩ 1 (3 / 2) (1 / 10) none false =
      .error "TypeError: object of type 'NoneType' has no len()" :=
  ⟨sqSimplify, triSimplify, polySimplify⟩

/-- Claim C4, amended: `simplify` passes every raw per-hole result through
unfiltered, so a rejected hole is not dropped: its `None` reaches the
`Polygon` constructor, which raises a `TypeError` — the call fails instead
of returning the exterior with the surviving holes.  Only when no hole was
rejected does `simplify` return a polygon, whose interiors list is exactly
the list of per-hole results (hence of the input holes' length). -/
theorem claim4_amended (fuel : Nat) (poly : PolyIn) (tau epsilon delta : ℝ)
    (gamma : Option ℝ) (mf : Bool) :
    (∀ po, simplify fuel poly tau epsilon delta gamma mf = .ok (some po) →
      poly.interiors.mapM
        (fun c => simplifyRing fuel c tau epsilon delta gamma mf) = .ok po.interiors ∧
      po.interiors.length = poly.interiors.length ∧
      none ∉ po.interiors) ∧
    (∀ e ints,
      simplifyRing fuel poly.exterior tau epsilon delta gamma mf = .ok (some e) →
      poly.interiors.mapM
        (fun c => simplifyRing fuel c tau epsilon delta gamma mf) = .ok ints →
      none ∈ ints →
      simplify fuel poly tau epsilon delta gamma mf =
        .error "TypeError: object of type 'NoneType' has no len()") := by
  constructor
  · intro po hok
    rw [simplify] at hok
    rcases hext : simplifyRing fuel poly.exterior tau epsilon delta gamma mf
      with e | ext <;> rw [hext] at hok
    · exact Except.noConfusion (show Except.error e = Except.ok (some po) from hok)
    · have hok2 : (poly.interiors.mapM
          (fun c => simplifyRing fuel c tau epsilon delta gamma mf)).bind
          (fun ints => match ext with
            | none => pure none
            | some e =>
              if none ∈ ints then
                .error "TypeError: object of type 'NoneType' has no len()"
              else pure (some { exterior := e, interiors := ints })) =
          .ok (some po) := hok
      rcases hints : poly.interiors.mapM
          (fun c => simplifyRing fuel c tau epsilon delta gamma mf)
        with e2 | ints <;> rw [hints] at hok2
      · exact Except.noConfusion (show Except.error e2 = Except.ok (some po) from hok2)
      · have hok3 : (match ext with
            | none => (pure none : Except String (Option PolyOut))
            | some e =>
              if none ∈ ints then
                .error "TypeError: object of type 'NoneType' has no len()"
              else pure (some { exterior := e, interiors := ints })) =
            .ok (some po) := hok2
        rcases ext with _ | e
        · exact Option.noConfusion (Except.ok.inj
            (show Except.ok (none : Option PolyOut) = Except.ok (some po) from hok3))
        · have hok4 : (if none ∈ ints then
              (.error "TypeError: object of type 'NoneType' has no len()" :
                Except String (Option PolyOut))
            else pure (some { exterior := e, interiors := ints })) =
              .ok (some po) := hok3
          by_cases hmem : none ∈ ints
          · rw [if_pos hmem] at hok4
            exact Except.noConfusion hok4
          · rw [if_neg hmem] at hok4
            have h4 : ({ exterior := e, interiors := ints } : PolyOut) = po :=
              Option.some.inj (Except.ok.inj
                (show Except.ok (some ({ exterior := e, interiors := ints } : PolyOut)) =
                  Except.ok (some po) from hok4))
            refine ⟨?_, ?_, ?_⟩
            · rw [← h4]
            · rw [← h4]
              exact mapM_ok_length _ _ _ hints
            · rw [← h4]
              exact hmem
  · intro e ints hext hints hmem
    rw [simplify]
    rw [hext]
    show (poly.interiors.mapM
        (fun c => simplifyRing fuel c tau epsilon delta gamma mf)).bind _ = _
    rw [hints]
    show (if none ∈ ints then
        (.error "TypeError: object of type 'NoneType' has no len()" :
          Except String (Option PolyOut))
      else pure (some { exterior := e, interiors := ints })) = _
    rw [if_pos hmem]

/-- Witness for C4: the no-hole square polygon exercises the success
conjunct, and the square-with-triangle-hole polygon exercises the
`TypeError` conjunct. -/
theorem claim4_amended_witness :
    (([] : List (List Point)).mapM
        (fun c => simplifyRing 5 c 1 (3 / 2) (1 / 10) none false) =
      .ok ({ exterior := sqCoords, interiors := [] } : PolyOut).interiors ∧
      ({ exterior := sqCoords, interiors := [] } : PolyOut).interiors.length =
        (⟨sqCoords, []⟩ : PolyIn).interiors.length ∧
      none ∉ ({ exterior := sqCoords, interiors := [] } : PolyOut).interiors) ∧
    simplify 5 ⟨sqCoords, [triCoords]⟩ 1 (3 / 2) (1 / 10) none false =
      .error "TypeError: object of type 'NoneType' has no len()" :=
  ⟨(claim4_amended 5 ⟨sqCoords, []⟩ 1 (3 / 2) (1 / 10) none false).1
      { exterior := sqCoords, interiors := [] } polySimplifyOK,
   (claim4_amended 5 ⟨sqCoords, [triCoords]⟩ 1 (3 / 2) (1 / 10) none false).2
      sqCoords [none] sqSimplify mapM_tri (List.mem_singleton.2 rfl)⟩

/-- Claim C6 is false: outcomes other than `None` and a valid sequence
occur.  The collinear triangle ends with 3 coordinates — not rejected as
degenerate — but the `LinearRing` constructor then raises on the closed
3-entry sequence, and an input with fewer than 3 coordinates raises an
`IndexError` inside `Ring.__init__`. -/
theorem claim6_counterexample :
    simplifyRing 2 colCoords 1 (3 / 2) (1 / 10) none false =
      .error "IllegalArgumentException: Invalid number of points in LinearRing found 3 - must be 0 or >= 4" ∧
    simplifyRing 5 [((0 : ℝ), (0 : ℝ)), (1, 1)] 1 (3 / 2) (1 / 10) none false =
      .error "IndexError: Ring with fewer than 2 segments" := by
  refine ⟨colSimplify, ?_⟩
  have h1 : ringInit [((0 : ℝ), (0 : ℝ)), (1, 1)] =
      .error "IndexError: Ring with fewer than 2 segments" := by
    rw [ringInit, show ([((0 : ℝ), (0 : ℝ)), (1, 1)] : List Point).length - 1 = 1
      from rfl, if_pos (by norm_num)]
  rw [simplifyRing, h1]
  rfl

/-- Claim C6, amended: `simplify_ring` has more outcomes than `None` and a
valid sequence — it can raise (an `IndexError` from `Ring.__init__` on
inputs with fewer than 3 coordinates, or the `LinearRing` constructor's
rejection when the final ring has exactly 3 coordinates) and can fail to
terminate.  When it does return a coordinate sequence, that sequence is
closed (its last entry repeats its first) and has at least 4 entries. -/
theorem claim6_amended (fuel : Nat) (coords : List Point) (tau epsilon delta : ℝ)
    (gamma : Option ℝ) (mf : Bool) (out : List Point)
    (hok : simplifyRing fuel coords tau epsilon delta gamma mf = .ok (some out)) :
    4 ≤ out.length ∧ out.getLast? = out.head? := by
  rw [simplifyRing] at hok
  rcases hri : ringInit coords with e | r <;> rw [hri] at hok
  · exact Except.noConfusion (show Except.error e = Except.ok (some out) from hok)
  · have hok2 : (runLoop tau epsilon delta gamma mf fuel (initState r)).bind
        (fun stF => if (Ring.coordinates stF.ring).length < 3 then pure none
          else (linearRing (Ring.coordinates stF.ring)).bind
            (fun lr => pure (some lr))) = .ok (some out) := hok
    rcases hrl : runLoop tau epsilon delta gamma mf fuel (initState r) with e | stF <;>
      rw [hrl] at hok2
    · exact Except.noConfusion (show Except.error e = Except.ok (some out) from hok2)
    · have hok3 : (if (Ring.coordinates stF.ring).length < 3 then
          (pure none : Except String (Option (List Point)))
          else (linearRing (Ring.coordinates stF.ring)).bind
            (fun lr => pure (some lr))) = .ok (some out) := hok2
      split_ifs at hok3 with hlen
      · exact Option.noConfusion (Except.ok.inj
          (show Except.ok (none : Option (List Point)) = Except.ok (some out) from hok3))
      · rcases hlr : linearRing (Ring.coordinates stF.ring) with e | lr <;>
          rw [hlr] at hok3
        · exact Except.noConfusion
            (show Except.error e = Except.ok (some out) from hok3)
        · have hlo : lr = out := Option.some.inj (Except.ok.inj
            (show Except.ok (some lr) = Except.ok (some out) from hok3))
          rw [← hlo]
          exact linearRing_ok _ lr hlr

/-- Witness for C6 at the square run. -/
theorem claim6_amended_witness :
    4 ≤ sqCoords.length ∧ sqCoords.getLast? = sqCoords.head? :=
  claim6_amended 5 sqCoords 1 (3 / 2) (1 / 10) none false _ sqSimplify

/-- Claim C7 is false: nothing is rejected before engine initialisation.  A
ring with fewer than 3 coordinates makes `Ring.__init__` itself — the engine
initialisation — raise an uncaught `IndexError` while linking the segments,
and a degenerate ring (four identical coordinates) passes with no complaint
and yields an engine running on that state. -/
theorem claim7_counterexample :
    ringInit [((0 : ℝ), (0 : ℝ)), (1, 1)] =
      .error "IndexError: Ring with fewer than 2 segments" ∧
    simplifyRing 5 [((0 : ℝ), (0 : ℝ)), (1, 1)] 1 (π / 36) (π / 180) none false =
      .error "IndexError: Ring with fewer than 2 segments" ∧
    ∃ r, ringInit [((0 : ℝ), (0 : ℝ)), (0, 0), (0, 0), (0, 0)] = .ok r := by
  have h1 : ringInit [((0 : ℝ), (0 : ℝ)), (1, 1)] =
      .error "IndexError: Ring with fewer than 2 segments" := by
    rw [ringInit, show ([((0 : ℝ), (0 : ℝ)), (1, 1)] : List Point).length - 1 = 1
      from rfl, if_pos (by norm_num)]
  refine ⟨h1, ?_, ?_⟩
  · rw [simplifyRing, h1]
    rfl
  · exact ⟨_, by
      rw [ringInit, show ([((0 : ℝ), (0 : ℝ)), (0, 0), (0, 0), (0, 0)] :
        List Point).length - 1 = 3 from rfl, if_neg (by norm_num)]⟩

/-- Claim C7, amended: there is no input validation.  An input with fewer
than 3 coordinates is not rejected before engine initialisation — the
`IndexError` escapes from `Ring.__init__` itself — and every input with at
least 3 coordinates, whatever its values, builds an engine that then runs on
the resulting state. -/
theorem claim7_amended (coords : List Point) (fuel : Nat) (tau epsilon delta : ℝ)
    (gamma : Option ℝ) (mf : Bool) :
    (coords.length < 3 →
      ringInit coords = .error "IndexError: Ring with fewer than 2 segments" ∧
      simplifyRing fuel coords tau epsilon delta gamma mf =
        .error "IndexError: Ring with fewer than 2 segments") ∧
    (3 ≤ coords.length → ∃ r, ringInit coords = .ok r) := by
  constructor
  · intro h
    have h1 : ringInit coords = .error "IndexError: Ring with fewer than 2 segments" := by
      rw [ringInit, if_pos (by omega)]
    refine ⟨h1, ?_⟩
    rw [simplifyRing, h1]
    rfl
  · intro h
    exact ⟨_, by rw [ringInit, if_neg (by omega : ¬ coords.length - 1 < 2)]⟩

/-- Witness for C7 at a 2-coordinate input and a degenerate 4-coordinate
input. -/
theorem claim7_amended_witness :
    (ringInit [((0 : ℝ), (0 : ℝ)), (1, 1)] =
      .error "IndexError: Ring with fewer than 2 segments" ∧
     simplifyRing 5 [((0 : ℝ), (0 : ℝ)), (1, 1)] 1 (π / 36) (π / 180) none false =
      .error "IndexError: Ring with fewer than 2 segments") ∧
    ∃ r, ringInit [((0 : ℝ), (0 : ℝ)), (0, 0), (0, 0), (0, 0)] = .ok r :=
  ⟨(claim7_amended [((0 : ℝ), (0 : ℝ)), (1, 1)] 5 1 (π / 36) (π / 180)
      none false).1 (by norm_num),
   (claim7_amended [((0 : ℝ), (0 : ℝ)), (0, 0), (0, 0), (0, 0)] 5 1 (π / 36)
      (π / 180) none false).2 (by norm_num)⟩

/-!
## Claim C8: the join-or-prune step
-/

/-- The legs' supporting lines meet at the apex. -/
lemma triIntersect : intersectionLines triC ((0 : ℝ), (0 : ℝ)) ((1 : ℝ), (0 : ℝ)) triC =
    some triC := by
  rw [intersectionLines]
  dsimp only [triC]
  have hs : (0 : ℝ) < Real.sqrt 3 := Real.sqrt_pos.2 (by norm_num)
  rw [show ((1 : ℝ) / 2 - 0) * (0 - Real.sqrt 3 / 2) -
      (Real.sqrt 3 / 2 - 0) * (1 - 1 / 2) = -(Real.sqrt 3 / 2) by ring]
  rw [if_neg (show ¬ -(Real.sqrt 3 / 2) = 0 by intro h; nlinarith)]
  rw [show ((1 : ℝ) / 2 * 0 - Real.sqrt 3 / 2 * 0) * (1 - 1 / 2) -
      ((1 : ℝ) / 2 - 0) * (1 * (Real.sqrt 3 / 2) - 0 * (1 / 2)) =
      -(Real.sqrt 3 / 4) by ring]
  rw [show ((1 : ℝ) / 2 * 0 - Real.sqrt 3 / 2 * 0) * (0 - Real.sqrt 3 / 2) -
      (Real.sqrt 3 / 2 - 0) * (1 * (Real.sqrt 3 / 2) - 0 * (1 / 2)) =
      -(Real.sqrt 3 ^ 2 / 4) by ring, sqrtThreeSq]
  have hne : -(Real.sqrt 3 / 2) ≠ 0 := by intro h; nlinarith
  have h1 : -(Real.sqrt 3 / 4) / -(Real.sqrt 3 / 2) = 1 / 2 := by
    rw [div_eq_iff hne]
    ring
  have h2 : -((3 : ℝ) / 4) / -(Real.sqrt 3 / 2) = Real.sqrt 3 / 2 := by
    rw [div_eq_iff hne, show Real.sqrt 3 / 2 * -(Real.sqrt 3 / 2) =
      -(Real.sqrt 3 ^ 2 / 4) by ring, sqrtThreeSq]
  rw [h1, h2]

/-- The distance of the apex from the base segment. -/
lemma triDist : distPointSeg ((0 : ℝ), (0 : ℝ)) ((1 : ℝ), (0 : ℝ)) triC =
    Real.sqrt 3 / 2 := by
  rw [distPointSeg]
  dsimp only [triC]
  rw [show ((1 : ℝ) - 0) ^ 2 + ((0 : ℝ) - 0) ^ 2 = 1 by norm_num]
  rw [if_neg (by norm_num : ¬ (1 : ℝ) = 0)]
  rw [show (((1 : ℝ) / 2 - 0) * (1 - 0) + (Real.sqrt 3 / 2 - 0) * (0 - 0)) / 1 =
    1 / 2 by ring]
  rw [show max 0 (min 1 ((1 : ℝ) / 2)) = 1 / 2 by norm_num]
  rw [ptDist]
  dsimp only
  rw [show ((1 : ℝ) / 2 - (0 + 1 / 2 * (1 - 0))) ^ 2 +
      (Real.sqrt 3 / 2 - (0 + 1 / 2 * (0 - 0))) ^ 2 = Real.sqrt 3 ^ 2 / 4 by ring,
    sqrtThreeSq]
  rw [show (3 : ℝ) / 4 = (Real.sqrt 3 / 2) ^ 2 by rw [div_pow, sqrtThreeSq]; norm_num]
  exact Real.sqrt_sq (by positivity)

lemma sqrtThreeLtTwo : Real.sqrt 3 < 2 := by
  rw [show (2 : ℝ) = Real.sqrt 4 by
    rw [show (4 : ℝ) = 2 ^ 2 by norm_num, Real.sqrt_sq (by norm_num : (0 : ℝ) ≤ 2)]]
  exact Real.sqrt_lt_sqrt (by norm_num) (by norm_num)

lemma oneLtSqrtThree : 1 < Real.sqrt 3 := by
  rw [show (1 : ℝ) = Real.sqrt 1 from Real.sqrt_one.symm]
  exact Real.sqrt_lt_sqrt (by norm_num) (by norm_num)

/-- The apex is within the effective join distance of the base
(`√3/2 ≤ min(s.length(), tau) = 1`). -/
lemma triDistBound : distPointSeg ((0 : ℝ), (0 : ℝ)) ((1 : ℝ), (0 : ℝ)) triC ≤
    min (segLen (triStore 0)) 1 := by
  rw [triDist, triLen0, min_self]
  linarith [sqrtThreeLtTwo]

/-- With `tau = 1/2` the apex is beyond the effective join distance. -/
lemma triDistBound2 : ¬ distPointSeg ((0 : ℝ), (0 : ℝ)) ((1 : ℝ), (0 : ℝ)) triC ≤
    min (segLen (triStore 0)) (1 / 2) := by
  rw [triDist, triLen0, show min (1 : ℝ) (1 / 2) = 1 / 2 by norm_num]
  intro h
  linarith [oneLtSqrtThree]

/-- The collinear neighbours' supporting lines are parallel. -/
lemma colIntersect : intersectionLines ((0 : ℝ), (0 : ℝ)) ((4 : ℝ), (0 : ℝ))
    ((8 : ℝ), (0 : ℝ)) ((0 : ℝ), (0 : ℝ)) = none := by
  rw [intersectionLines]
  dsimp only
  rw [if_pos (by norm_num)]

lemma colPrevLtNext : segLen (colRing.store ((colRing.store 1).prv)) <
    segLen (colRing.store ((colRing.store 1).nxt)) := by
  rw [show (colRing.store 1).prv = 0 from rfl, show (colRing.store 1).nxt = 2 from rfl,
    show segLen (colRing.store 0) = lenKey colRing 0 from rfl,
    show segLen (colRing.store 2) = lenKey colRing 2 from rfl, colKey0, colKey2]
  norm_num

lemma triPrevNotLt : ¬ segLen (triRing.store ((triRing.store 0).prv)) <
    segLen (triRing.store ((triRing.store 0).nxt)) := by
  rw [show (triRing.store 0).prv = 2 from rfl, show (triRing.store 0).nxt = 1 from rfl,
    show triRing.store 2 = triStore 2 from rfl,
    show triRing.store 1 = triStore 1 from rfl, triLen2, triLen1]
  norm_num

/-- C8: with the popped segment short enough and its neighbours neither
nearly parallel nor nearly anti-parallel, the loop dispatches to the
join-or-prune step; that step joins through the intersection of the lines
extending the neighbours exactly when it exists within the effective join
distance `min(gamma ?? s.length(), tau)` (the join removes the popped
segment, rejoining its neighbours through the intersection), and otherwise
collinear-merges the shorter neighbour — `prev` exactly when `prev` is
strictly shorter than `next`, else the popped segment absorbs `next`. -/
theorem claim8 :
    (∀ (tau epsilon delta : ℝ) (gamma : Option ℝ) (mf : Bool) (st : EState)
      (s : Nat) (q1 : List Nat),
      heapPop (lenKey st.ring) st.queue = some (s, q1) →
      ¬ (π - delta < popAngle st.ring s ∧ popAngle st.ring s < π + delta) →
      segLen (st.ring.store s) ≤ tau →
      ¬ (0 ≤ foldedAlpha st.ring s ∧ foldedAlpha st.ring s ≤ epsilon) →
      ¬ (π - foldedAlpha st.ring s ≤ epsilon) →
      loopStep tau epsilon delta gamma mf st =
        .ok (joinOrPrune tau gamma ⟨st.ring, q1⟩ s)) ∧
    (∀ (tau : ℝ) (gamma : Option ℝ) (st : EState) (i : Nat) (qp : Point),
      intersectionLines (st.ring.store ((st.ring.store i).prv)).sp
        (st.ring.store ((st.ring.store i).prv)).ep
        (st.ring.store ((st.ring.store i).nxt)).sp
        (st.ring.store ((st.ring.store i).nxt)).ep = some qp →
      distPointSeg (st.ring.store i).sp (st.ring.store i).ep qp ≤
        min (match gamma with | none => segLen (st.ring.store i) | some g => g) tau →
      joinOrPrune tau gamma st i = joinSegment st i qp ∧
      (joinSegment st i qp).ring = Ring.remove st.ring i qp) ∧
    (∀ (tau : ℝ) (gamma : Option ℝ) (st : EState) (i : Nat) (qp : Point),
      intersectionLines (st.ring.store ((st.ring.store i).prv)).sp
        (st.ring.store ((st.ring.store i).prv)).ep
        (st.ring.store ((st.ring.store i).nxt)).sp
        (st.ring.store ((st.ring.store i).nxt)).ep = some qp →
      ¬ distPointSeg (st.ring.store i).sp (st.ring.store i).ep qp ≤
        min (match gamma with | none => segLen (st.ring.store i) | some g => g) tau →
      joinOrPrune tau gamma st i = pruneStep st i) ∧
    (∀ (tau : ℝ) (gamma : Option ℝ) (st : EState) (i : Nat),
      intersectionLines (st.ring.store ((st.ring.store i).prv)).sp
        (st.ring.store ((st.ring.store i).prv)).ep
        (st.ring.store ((st.ring.store i).nxt)).sp
        (st.ring.store ((st.ring.store i).nxt)).ep = none →
      joinOrPrune tau gamma st i = pruneStep st i) ∧
    (∀ (st : EState) (i : Nat),
      segLen (st.ring.store ((st.ring.store i).prv)) <
        segLen (st.ring.store ((st.ring.store i).nxt)) →
      pruneStep st i =
        removeMiddlePoint (rmQ st ((st.ring.store i).prv)) ((st.ring.store i).prv)) ∧
    (∀ (st : EState) (i : Nat),
      ¬ segLen (st.ring.store ((st.ring.store i).prv)) <
        segLen (st.ring.store ((st.ring.store i).nxt)) →
      pruneStep st i = removeMiddlePoint st i) ∧
    (∀ (st : EState) (i : Nat),
      (removeMiddlePoint st i).ring = Ring.merge st.ring i) := by
  refine ⟨?_, ?_, ?_, ?_, ?_, ?_, ?_⟩
  · intro tau epsilon delta gamma mf st s q1 hpop h1 h2 h3 h4
    rw [loopStep, hpop]
    dsimp only
    rw [if_neg h1, if_pos h2, if_neg h3, if_neg h4]
  · intro tau gamma st i qp hint hd
    refine ⟨?_, joinSegment_ring st i qp⟩
    rw [joinOrPrune.eq_def]
    dsimp only
    rw [hint]
    dsimp only
    rw [if_pos hd]
  · intro tau gamma st i qp hint hd
    rw [joinOrPrune.eq_def]
    dsimp only
    rw [hint]
    dsimp only
    rw [if_neg hd]
  · intro tau gamma st i hint
    rw [joinOrPrune.eq_def]
    dsimp only
    rw [hint]
  · intro st i h
    rw [pruneStep, if_pos h]
  · intro st i h
    rw [pruneStep, if_neg h]
  · intro st i
    exact removeMiddlePoint_ring st i

/-- Witness for C8: the dispatch and the join at the equilateral triangle
(`tau = 1`), the prune fallbacks at `tau = 1/2` and at parallel neighbours,
and both prune branches. -/
theorem claim8_witness :
    loopStep 1 (1 / 10) (1 / 10) none false ⟨triRing, [0, 1, 2]⟩ =
      .ok (joinOrPrune 1 none ⟨triRing, [1, 2]⟩ 0) ∧
    joinOrPrune 1 none ⟨triRing, [1, 2]⟩ 0 = joinSegment ⟨triRing, [1, 2]⟩ 0 triC ∧
    (joinSegment ⟨triRing, [1, 2]⟩ 0 triC).ring = Ring.remove triRing 0 triC ∧
    joinOrPrune (1 / 2) none ⟨triRing, [1, 2]⟩ 0 = pruneStep ⟨triRing, [1, 2]⟩ 0 ∧
    joinOrPrune 1 none ⟨colRing, [0, 2]⟩ 1 = pruneStep ⟨colRing, [0, 2]⟩ 1 ∧
    pruneStep ⟨colRing, [0, 2]⟩ 1 = removeMiddlePoint (rmQ ⟨colRing, [0, 2]⟩ 0) 0 ∧
    pruneStep ⟨triRing, [1, 2]⟩ 0 = removeMiddlePoint ⟨triRing, [1, 2]⟩ 0 ∧
    (removeMiddlePoint ⟨colRing, [1, 2]⟩ 0).ring = Ring.merge colRing 0 := by
  have hw1 := claim8.1 1 (1 / 10) (1 / 10) none false ⟨triRing, [0, 1, 2]⟩ 0 [1, 2]
    triPop
    (by
      rw [triPopAngle]
      rintro ⟨hc, _⟩
      have h3 := Real.pi_gt_three
      linarith)
    (by rw [show triRing.store 0 = triStore 0 from rfl, triLen0])
    (by
      rw [triAlpha]
      rintro ⟨_, hc⟩
      have h3 := Real.pi_gt_three
      linarith)
    (by
      rw [triAlpha]
      intro hc
      have h3 := Real.pi_gt_three
      linarith)
  have hw2 := claim8.2.1 1 none ⟨triRing, [1, 2]⟩ 0 triC triIntersect triDistBound
  have hw3 := claim8.2.2.1 (1 / 2) none ⟨triRing, [1, 2]⟩ 0 triC triIntersect
    triDistBound2
  have hw4 := claim8.2.2.2.1 1 none ⟨colRing, [0, 2]⟩ 1 colIntersect
  have hw5 := claim8.2.2.2.2.1 ⟨colRing, [0, 2]⟩ 1 colPrevLtNext
  have hw6 := claim8.2.2.2.2.2.1 ⟨triRing, [1, 2]⟩ 0 triPrevNotLt
  have hw7 := claim8.2.2.2.2.2.2 ⟨colRing, [1, 2]⟩ 0
  exact ⟨hw1, hw2.1, hw2.2, hw3, hw4, hw5, hw6, hw7⟩

end Prism

end
